import Mathlib

/-!
Shallow embedding of the vectorization engine of the ath-vectorization-service
repository (src/app/encoder.py and src/app/vectorization_service.py).

Python values flowing through the engine are modelled by the JSON-like type
`JVal`; Python dicts are insertion-ordered association lists with string keys.
Operations that can raise a Python exception (attribute access on a non-dict,
`in` on a number, `len` on a number, `max` over incomparable values) return
`Except String`; the string is only a stand-in for the exception class and no
theorem depends on its text.
-/

namespace AthVect

inductive JVal where
  | null : JVal
  | int : Int → JVal
  | float : Rat → JVal
  | str : String → JVal
  | list : List JVal → JVal
  | dict : List (String × JVal) → JVal
deriving Repr

/-- First-match lookup in an insertion-ordered Python dict. -/
def dlookup : List (String × JVal) → String → Option JVal
  | [], _ => none
  | (k, v) :: rest, key => if k = key then some v else dlookup rest key

/-- Python `d.get(key, default)` on a dict. -/
def pyGetD (d : List (String × JVal)) (k : String) (dflt : JVal) : JVal :=
  (dlookup d k).getD dflt

/-- Python `v.get(key, default)` on an arbitrary value: raises AttributeError
unless `v` is a dict. -/
def pyDictGet (v : JVal) (k : String) (dflt : JVal) : Except String JVal :=
  match v with
  | .dict d => .ok (pyGetD d k dflt)
  | _ => .error "AttributeError"

/-- Python dict assignment `d[k] = v`: replaces in place, else appends. -/
def dictSet : List (String × JVal) → String → JVal → List (String × JVal)
  | [], k, v => [(k, v)]
  | (k', v') :: rest, k, v =>
      if k' = k then (k, v) :: rest else (k', v') :: dictSet rest k v

/-- Python truthiness of a value. -/
def truthy : JVal → Bool
  | .null => false
  | .int n => n != 0
  | .float q => q != 0
  | .str s => s ≠ ""
  | .list l => !l.isEmpty
  | .dict d => !d.isEmpty

/-- Python `v == 0` (numeric zero test; never raises). -/
def isZero : JVal → Bool
  | .int n => n == 0
  | .float q => q == 0
  | _ => false

/-- Python `v == s` against a string literal. -/
def jEqStr (v : JVal) (s : String) : Bool :=
  match v with
  | .str t => t = s
  | _ => false

/-- Substring test used by Python `key in someString`. -/
def strContains (s pat : String) : Bool :=
  if pat = "" then true else (s.splitOn pat).length ≥ 2

/-- Python `key in v` for a string key: dict key membership, list element
membership (string equality against each element), substring test on strings,
TypeError on numbers and None. -/
def pyInStr (k : String) (v : JVal) : Except String Bool :=
  match v with
  | .dict d => .ok (d.any (fun p => p.1 = k))
  | .list l => .ok (l.any (fun x => jEqStr x k))
  | .str s => .ok (strContains s k)
  | _ => .error "TypeError"

/-- Python `len(v)`: TypeError on numbers and None. -/
def pyLen : JVal → Except String Nat
  | .str s => .ok s.length
  | .list l => .ok l.length
  | .dict d => .ok d.length
  | _ => .error "TypeError"

/-- ASCII upper-casing of one character (Python str.upper on the identifiers
appearing in this code base). -/
def upChar (c : Char) : Char :=
  match c with
  | 'a' => 'A' | 'b' => 'B' | 'c' => 'C' | 'd' => 'D' | 'e' => 'E' | 'f' => 'F'
  | 'g' => 'G' | 'h' => 'H' | 'i' => 'I' | 'j' => 'J' | 'k' => 'K' | 'l' => 'L'
  | 'm' => 'M' | 'n' => 'N' | 'o' => 'O' | 'p' => 'P' | 'q' => 'Q' | 'r' => 'R'
  | 's' => 'S' | 't' => 'T' | 'u' => 'U' | 'v' => 'V' | 'w' => 'W' | 'x' => 'X'
  | 'y' => 'Y' | 'z' => 'Z'
  | _ => c

/-- Python `s.upper()` on a string. -/
def pyStrUpper (s : String) : String := String.mk (s.data.map upChar)

/-- Python `v.upper()`: AttributeError unless `v` is a string. -/
def pyUpper : JVal → Except String String
  | .str s => .ok (pyStrUpper s)
  | _ => .error "AttributeError"

mutual
/-- Python rich comparison used by `max`: numbers compare numerically, strings
lexicographically, lists lexicographically element-wise; any other mix raises
TypeError. -/
def pyCmp : JVal → JVal → Except String Ordering
  | .int a, .int b =>
      .ok (if a < b then .lt else if b < a then .gt else .eq)
  | .int a, .float b =>
      .ok (if (a : Rat) < b then .lt else if b < (a : Rat) then .gt else .eq)
  | .float a, .int b =>
      .ok (if a < (b : Rat) then .lt else if (b : Rat) < a then .gt else .eq)
  | .float a, .float b =>
      .ok (if a < b then .lt else if b < a then .gt else .eq)
  | .str a, .str b =>
      .ok (if a < b then .lt else if b < a then .gt else .eq)
  | .list a, .list b => pyCmpList a b
  | _, _ => .error "TypeError"

def pyCmpList : List JVal → List JVal → Except String Ordering
  | [], [] => .ok .eq
  | [], _ :: _ => .ok .lt
  | _ :: _, [] => .ok .gt
  | a :: as, b :: bs =>
      match pyCmp a b with
      | .error e => .error e
      | .ok .eq => pyCmpList as bs
      | .ok o => .ok o
end

/-- Tail of Python `max`: keep the current maximum, replace it whenever a later
item compares strictly greater. -/
def pyMaxAux (cur : JVal) : List JVal → Except String JVal
  | [] => .ok cur
  | x :: rest =>
      match pyCmp x cur with
      | .error e => .error e
      | .ok .gt => pyMaxAux x rest
      | .ok _ => pyMaxAux cur rest

/-- Python `max(l)`: ValueError on an empty sequence. -/
def pyMax : List JVal → Except String JVal
  | [] => .error "ValueError"
  | x :: rest => pyMaxAux x rest

/-! ### encoder.py -/

/-- BooleanVectorizer.vectorize: `[numOfNotNull, numOfTrue]`, defaulting missing
keys to 0; raises AttributeError when the statistics value is not a dict. -/
def boolVectorize (statistics : JVal) : Except String (List JVal) := do
  let numNotNull ← pyDictGet statistics "numOfNotNull" (.int 0)
  let numTrue ← pyDictGet statistics "numOfTrue" (.int 0)
  .ok [numNotNull, numTrue]

/-- NumericVectorizer.vectorize: all-zero 7-vector when `numOfNotNull == 0`,
otherwise `[numOfNotNull, min, max, avg, q1, q2, q3]` with 0.0 defaults. -/
def numericVectorize (statistics : JVal) : Except String (List JVal) := do
  let numNotNull ← pyDictGet statistics "numOfNotNull" (.int 0)
  if isZero numNotNull then
    .ok [.int 0, .float 0, .float 0, .float 0, .float 0, .float 0, .float 0]
  else do
    let minVal ← pyDictGet statistics "min" (.float 0)
    let maxVal ← pyDictGet statistics "max" (.float 0)
    let avgVal ← pyDictGet statistics "avg" (.float 0)
    let q1Val ← pyDictGet statistics "q1" (.float 0)
    let q2Val ← pyDictGet statistics "q2" (.float 0)
    let q3Val ← pyDictGet statistics "q3" (.float 0)
    .ok [numNotNull, minVal, maxVal, avgVal, q1Val, q2Val, q3Val]

/-- CategoricalVectorizer.vectorize: `[0,0,0]` when `numOfNotNull == 0`,
otherwise `[numOfNotNull, len(valueSet), topValueCount]` where topValueCount is
the max over a list- or dict-shaped cardinalityPerItem and 0 otherwise. -/
def catVectorize (statistics : JVal) : Except String (List JVal) := do
  let numNotNull ← pyDictGet statistics "numOfNotNull" (.int 0)
  if isZero numNotNull then
    .ok [.int 0, .int 0, .int 0]
  else do
    let valueSet ← pyDictGet statistics "valueSet" (.list [])
    let cardinalityPerItem ← pyDictGet statistics "cardinalityPerItem" (.list [])
    let numUniqueValues ← pyLen valueSet
    let topValueCount ←
      match cardinalityPerItem with
      | .list l => if l.isEmpty then .ok (JVal.int 0) else pyMax l
      | .dict d => if d.isEmpty then .ok (JVal.int 0) else pyMax (d.map (·.2))
      | _ => .ok (JVal.int 0)
    .ok [numNotNull, .int numUniqueValues, topValueCount]

/-- The three vectorizer classes. -/
inductive VKind where
  | boolean : VKind
  | numeric : VKind
  | categorical : VKind
deriving Repr, DecidableEq

def VKind.vectorize : VKind → JVal → Except String (List JVal)
  | .boolean, s => boolVectorize s
  | .numeric, s => numericVectorize s
  | .categorical, s => catVectorize s

def VKind.vectorLength : VKind → Nat
  | .boolean => 2
  | .numeric => 7
  | .categorical => 3

def VKind.vectorDescription : VKind → List String
  | .boolean => ["numOfNotNull", "numOfTrue"]
  | .numeric => ["numOfNotNull", "min", "max", "avg", "q1", "q2", "q3"]
  | .categorical => ["numOfNotNull", "numUniqueValues", "topValueCount"]

/-- Keys of the vectorizer registry, in insertion order. -/
def supportedDataTypes : List String := ["BOOLEAN", "NUMERIC", "NOMINAL", "ORDINAL"]

/-- Encoder.get_vectorizer: registry lookup on the upper-cased data type,
defaulting to the NOMINAL (categorical) vectorizer for unknown types. -/
def getVectorizerStr (dataType : String) : VKind :=
  let u := pyStrUpper dataType
  if u = "BOOLEAN" then .boolean
  else if u = "NUMERIC" then .numeric
  else if u = "NOMINAL" then .categorical
  else if u = "ORDINAL" then .categorical
  else .categorical

/-- get_vectorizer applied to an arbitrary value: `.upper()` raises unless the
data type is a string. -/
def getVectorizerJ (dataType : JVal) : Except String VKind := do
  let _ ← pyUpper dataType
  match dataType with
  | .str s => .ok (getVectorizerStr s)
  | _ => .error "AttributeError"

/-- Encoder object `{type, data, dataType, vectorLength}`. -/
structure EncoderObj where
  type : String
  data : List JVal
  dataType : String
  vectorLength : Nat
deriving Repr

/-- Wire type tag of Encoder.encode_feature_vector. -/
def encoderTypeFor (u : String) : String :=
  if u = "BOOLEAN" then "int"
  else if u = "NUMERIC" then "float"
  else if u = "NOMINAL" ∨ u = "ORDINAL" then "int"
  else "int"

/-- Encoder.encode_feature_vector on a string data type. -/
def encodeFeatureVectorStr (dataType : String) (vector : List JVal) : EncoderObj :=
  { type := encoderTypeFor (pyStrUpper dataType)
    data := vector
    dataType := pyStrUpper dataType
    vectorLength := vector.length }

/-- Encoder.encode_feature_vector on an arbitrary value: `.upper()` raises
unless the data type is a string. -/
def encodeFeatureVectorJ (dataType : JVal) (vector : List JVal) : Except String EncoderObj :=
  match dataType with
  | .str s => .ok (encodeFeatureVectorStr s vector)
  | _ => .error "AttributeError"

/-- Encoder.encode_boolean_vector (legacy wrapper). -/
def encodeBooleanVector (vector : List JVal) : EncoderObj :=
  encodeFeatureVectorStr "BOOLEAN" vector

/-- Encoder.vectorize_feature_statistics: delegate to the registered
vectorizer. -/
def vectorizeFeatureStatisticsStr (dataType : String) (statistics : JVal) :
    Except String (List JVal) :=
  (getVectorizerStr dataType).vectorize statistics

/-- vectorize_feature_statistics on an arbitrary data-type value. -/
def vectorizeFeatureStatisticsJ (dataType : JVal) (statistics : JVal) :
    Except String (List JVal) := do
  let vk ← getVectorizerJ dataType
  vk.vectorize statistics

/-- JSON image of an encoder object as it is stored inside a feature's
`vectorized_statistics`. -/
def encoderToJVal (e : EncoderObj) : JVal :=
  .dict [("type", .str e.type), ("data", .list e.data),
         ("dataType", .str e.dataType), ("vectorLength", .int e.vectorLength)]

/-! ### vectorization_service.py -/

/-- VectorizationService._vectorize_boolean_stats (a verbatim duplicate of the
boolean vectorizer living on the service). -/
def vectorizeBooleanStats (statistics : JVal) : Except String (List JVal) := do
  let numNotNull ← pyDictGet statistics "numOfNotNull" (.int 0)
  let numTrue ← pyDictGet statistics "numOfTrue" (.int 0)
  .ok [numNotNull, numTrue]

/-- VectorizationService._create_encoder_for_feature: try to vectorize and wrap;
any exception inside the try block falls back to `encode_feature_vector(dt, [0])`
(which itself re-raises when the data type is not a string). The feature name is
only used for logging. -/
def createEncoderForFeature (_featureName : JVal) (dataType : JVal) (statistics : JVal) :
    Except String EncoderObj :=
  match (do
      let vectorData ← vectorizeFeatureStatisticsJ dataType statistics
      encodeFeatureVectorJ dataType vectorData : Except String EncoderObj) with
  | .ok e => .ok e
  | .error _ => encodeFeatureVectorJ dataType [.int 0]

/-- VectorizationService._create_encoder_for_boolean_feature: vectorize the
feature's statistics, attach `vectorized_statistics = {vectorized, encoder}`
(no dataType key), and return the updated feature plus the encoder. -/
def createEncoderForBooleanFeature (feature : List (String × JVal)) :
    Except String (List (String × JVal) × EncoderObj) := do
  let stats := pyGetD feature "statistics" (.dict [])
  let vectorData ← vectorizeBooleanStats stats
  let enc := encodeBooleanVector vectorData
  let vs := JVal.dict [("vectorized", .list vectorData), ("encoder", encoderToJVal enc)]
  .ok (dictSet feature "vectorized_statistics" vs, enc)

/-- VectorizationService._detect_data_format. -/
def detectDataFormat (data : JVal) : Except String String :=
  match pyInStr "entries" data with
  | .error e => .error e
  | .ok false => .ok "unknown"
  | .ok true =>
      match data with
      | .dict d =>
          match dlookup d "entries" with
          | some (.list _) => .ok "legacy"
          | some (.dict _) => .ok "direct"
          | _ => .ok "unknown"
      | _ => .error "TypeError"

/-- Loop of _get_feature_data_type over the `features` metadata: first entry
whose `name` equals the feature name wins, yielding its `dataType` (default
"UNKNOWN"); a non-dict metadata element raises AttributeError. -/
def metaNameMatches (md : List (String × JVal)) (featureName : String) : Bool :=
  match dlookup md "name" with
  | some (.str s) => s == featureName
  | _ => false

def metaFind (featureName : String) : List JVal → Except String (Option JVal)
  | [] => .ok none
  | m :: rest =>
      match m with
      | .dict md =>
          if metaNameMatches md featureName then
            .ok (some (pyGetD md "dataType" (.str "UNKNOWN")))
          else metaFind featureName rest
      | _ => .error "AttributeError"

/-- Shape-based inference tail of _get_feature_data_type (the elif chain over
the statistics record, reached when no metadata entry matched). -/
def inferTypeFromShape (featureData : JVal) : Except String JVal := do
  let hasNumOfTrue ← pyInStr "numOfTrue" featureData
  if hasNumOfTrue then .ok (.str "BOOLEAN")
  else do
    let hasValueSet ← pyInStr "valueSet" featureData
    let hasCard ← if hasValueSet then pyInStr "cardinalityPerItem" featureData
                  else .ok false
    if hasValueSet && hasCard then .ok (.str "NOMINAL")
    else do
      let hasMin ← pyInStr "min" featureData
      let hasMax ← if hasMin then pyInStr "max" featureData else .ok false
      let hasAvg ← if hasMin && hasMax then pyInStr "avg" featureData else .ok false
      if hasMin && hasMax && hasAvg then .ok (.str "NUMERIC")
      else do
        let hasNumOfNotNull ← pyInStr "numOfNotNull" featureData
        let recordLen ← if hasNumOfNotNull then pyLen featureData else .ok 0
        if hasNumOfNotNull && recordLen == 1 then .ok (.str "DATETIME")
        else .ok (.str "UNKNOWN")

/-- VectorizationService._get_feature_data_type: explicit metadata first, then
shape-based inference over the statistics record. -/
def getFeatureDataType (featureName : String) (featureData : JVal)
    (featuresMetadata : JVal) : Except String JVal := do
  let fromMeta ←
    if truthy featuresMetadata then
      match featuresMetadata with
      | .list ms => metaFind featureName ms
      | _ => .error "TypeError"
    else .ok none
  match fromMeta with
  | some dt => .ok dt
  | none => inferTypeFromShape featureData

/-- Truthiness of the optional query string (Python `if query`): None and the
empty string are falsy. -/
def qActive : Option String → Bool
  | none => false
  | some s => s ≠ ""

/-- Schema entry `{featureName, dataType, offset, length, fields}`. -/
structure SchemaEntry where
  featureName : JVal
  dataType : JVal
  offset : Nat
  length : Nat
  fields : List String
deriving Repr

/-- Loop body of _process_direct_format over `entries.items()`, threading the
running offset; returns the processed entries, the per-feature encoders, the
schema list and the final offset. -/
def processDirectLoop (query : Option String) (featuresMetadata : JVal) :
    List (String × JVal) → Nat →
    Except String (List (String × JVal) × List EncoderObj × List SchemaEntry × Nat)
  | [], offset => .ok ([], [], [], offset)
  | (featureName, featureStats) :: rest, offset =>
      if qActive query && featureName ≠ (query.getD "") then
        match processDirectLoop query featuresMetadata rest offset with
        | .error e => .error e
        | .ok (pe, encs, sch, off') => .ok ((featureName, featureStats) :: pe, encs, sch, off')
      else
        match getFeatureDataType featureName featureStats featuresMetadata with
        | .error e => .error e
        | .ok dataType =>
            if jEqStr dataType "UNKNOWN" then
              match processDirectLoop query featuresMetadata rest offset with
              | .error e => .error e
              | .ok (pe, encs, sch, off') =>
                  .ok ((featureName, featureStats) :: pe, encs, sch, off')
            else if jEqStr dataType "DATETIME" then
              match processDirectLoop query featuresMetadata rest offset with
              | .error e => .error e
              | .ok (pe, encs, sch, off') =>
                  .ok ((featureName, featureStats) :: pe, encs, sch, off')
            else
              match createEncoderForFeature (.str featureName) dataType featureStats with
              | .error e => .error e
              | .ok enc =>
                  match featureStats with
                  | .dict fs =>
                      match getVectorizerJ dataType with
                      | .error e => .error e
                      | .ok vk =>
                          let newStats := JVal.dict (dictSet fs "vectorized_statistics"
                            (.dict [("vectorized", .list enc.data),
                                    ("encoder", encoderToJVal enc),
                                    ("dataType", dataType)]))
                          let entry : SchemaEntry :=
                            ⟨.str featureName, dataType, offset, vk.vectorLength,
                              vk.vectorDescription⟩
                          match processDirectLoop query featuresMetadata rest
                              (offset + vk.vectorLength) with
                          | .error e => .error e
                          | .ok (pe, encs, sch, off') =>
                              .ok ((featureName, newStats) :: pe, enc :: encs,
                                   entry :: sch, off')
                  | _ => .error "TypeError"

/-- VectorizationService._process_direct_format. -/
def processDirectFormat (data : List (String × JVal)) (query : Option String) :
    Except String (JVal × List EncoderObj × List SchemaEntry) :=
  match (dlookup data "entries").getD (.dict []) with
  | .dict entries =>
      let featuresMetadata := pyGetD data "features" (.list [])
      match processDirectLoop query featuresMetadata entries 0 with
      | .error e => .error e
      | .ok (pe, encs, sch, _) =>
          .ok (.dict (dictSet data "entries" (.dict pe)), encs, sch)
  | _ => .error "AttributeError"

/-- Inner loop of _process_legacy_format over `featureSet.features`: BOOLEAN
features go through the legacy boolean helper, NUMERIC/NOMINAL/ORDINAL through
the generic encoder, anything else (including a missing or non-eligible declared
dataType) is left untouched. -/
def processLegacyFeatures (query : Option String) :
    List JVal → Nat →
    Except String (List JVal × List EncoderObj × List SchemaEntry × Nat)
  | [], offset => .ok ([], [], [], offset)
  | f :: rest, offset =>
      match f with
      | .dict fd =>
          if qActive query && !(jEqStr (pyGetD fd "name" .null) (query.getD "")) then
            match processLegacyFeatures query rest offset with
            | .error e => .error e
            | .ok (fs', encs, sch, off') => .ok (f :: fs', encs, sch, off')
          else
            match pyUpper (pyGetD fd "dataType" (.str "")) with
            | .error e => .error e
            | .ok dataTypeU =>
                if dataTypeU = "BOOLEAN" then
                  match createEncoderForBooleanFeature fd with
                  | .error e => .error e
                  | .ok (fd', enc) =>
                      let entry : SchemaEntry :=
                        ⟨pyGetD fd "name" .null, .str dataTypeU, offset, 2,
                          ["numOfNotNull", "numOfTrue"]⟩
                      match processLegacyFeatures query rest (offset + 2) with
                      | .error e => .error e
                      | .ok (fs', encs, sch, off') =>
                          .ok (.dict fd' :: fs', enc :: encs, entry :: sch, off')
                else if dataTypeU = "NUMERIC" ∨ dataTypeU = "NOMINAL" ∨
                    dataTypeU = "ORDINAL" then
                  let stats := pyGetD fd "statistics" (.dict [])
                  match createEncoderForFeature (pyGetD fd "name" .null)
                      (.str dataTypeU) stats with
                  | .error e => .error e
                  | .ok enc =>
                      let fd' := dictSet fd "vectorized_statistics"
                        (.dict [("vectorized", .list enc.data),
                                ("encoder", encoderToJVal enc),
                                ("dataType", .str dataTypeU)])
                      let vk := getVectorizerStr dataTypeU
                      let entry : SchemaEntry :=
                        ⟨pyGetD fd "name" .null, .str dataTypeU, offset,
                          vk.vectorLength, vk.vectorDescription⟩
                      match processLegacyFeatures query rest (offset + vk.vectorLength) with
                      | .error e => .error e
                      | .ok (fs', encs, sch, off') =>
                          .ok (.dict fd' :: fs', enc :: encs, entry :: sch, off')
                else
                  match processLegacyFeatures query rest offset with
                  | .error e => .error e
                  | .ok (fs', encs, sch, off') => .ok (f :: fs', encs, sch, off')
      | _ => .error "AttributeError"

/-- Outer loop of _process_legacy_format over the entries sequence. The in-place
mutation of the nested feature list is modelled by rebuilding the entry with the
processed features at the same key positions; entries whose `featureSet` or
`features` key is absent contribute nothing and stay untouched. -/
def processLegacyEntries (query : Option String) :
    List JVal → Nat →
    Except String (List JVal × List EncoderObj × List SchemaEntry × Nat)
  | [], offset => .ok ([], [], [], offset)
  | e :: rest, offset =>
      match e with
      | .dict ed =>
          match dlookup ed "featureSet" with
          | none =>
              match processLegacyEntries query rest offset with
              | .error err => .error err
              | .ok (rest', encs, sch, off') => .ok (e :: rest', encs, sch, off')
          | some (.dict fsd) =>
              match dlookup fsd "features" with
              | none =>
                  match processLegacyEntries query rest offset with
                  | .error err => .error err
                  | .ok (rest', encs, sch, off') => .ok (e :: rest', encs, sch, off')
              | some (.list feats) =>
                  match processLegacyFeatures query feats offset with
                  | .error err => .error err
                  | .ok (feats', encs1, sch1, off1) =>
                      let ed' := dictSet ed "featureSet"
                        (.dict (dictSet fsd "features" (.list feats')))
                      match processLegacyEntries query rest off1 with
                      | .error err => .error err
                      | .ok (rest', encs2, sch2, off') =>
                          .ok (.dict ed' :: rest', encs1 ++ encs2, sch1 ++ sch2, off')
              | some (.dict d0) =>
                  if d0.isEmpty then
                    match processLegacyEntries query rest offset with
                    | .error err => .error err
                    | .ok (rest', encs, sch, off') => .ok (e :: rest', encs, sch, off')
                  else .error "AttributeError"
              | some (.str s) =>
                  if s = "" then
                    match processLegacyEntries query rest offset with
                    | .error err => .error err
                    | .ok (rest', encs, sch, off') => .ok (e :: rest', encs, sch, off')
                  else .error "AttributeError"
              | some _ => .error "TypeError"
          | some _ => .error "AttributeError"
      | _ => .error "AttributeError"

/-- VectorizationService._process_legacy_format. -/
def processLegacyFormat (data : List (String × JVal)) (query : Option String) :
    Except String (JVal × List EncoderObj × List SchemaEntry) :=
  match dlookup data "entries" with
  | some (.list entries) =>
      match processLegacyEntries query entries 0 with
      | .error e => .error e
      | .ok (entries', encs, sch, _) =>
          .ok (.dict (dictSet data "entries" (.list entries')), encs, sch)
  | none => .ok (.dict data, [], [])
  | some (.dict d0) => if d0.isEmpty then .ok (.dict data, [], []) else .error "AttributeError"
  | some (.str s) => if s = "" then .ok (.dict data, [], []) else .error "AttributeError"
  | some _ => .error "TypeError"

/-- Result element of enhance_dataset's encoders list: either a per-feature
encoder object or the single aggregated encoder
`{type: "mixed", data, totalFeatures, supportedDataTypes}`. -/
inductive EncoderOut where
  | single : EncoderObj → EncoderOut
  | aggregated : String → List JVal → Nat → List String → EncoderOut
deriving Repr

/-- VectorizationService.enhance_dataset. -/
def enhanceDataset (data : JVal) (query : Option String) :
    Except String (JVal × List EncoderOut × List SchemaEntry) :=
  match detectDataFormat data with
  | .error e => .error e
  | .ok fmt =>
      let processed : Except String (JVal × List EncoderObj × List SchemaEntry) :=
        if fmt = "direct" then
          match data with
          | .dict d => processDirectFormat d query
          | _ => .error "AttributeError"
        else if fmt = "legacy" then
          match data with
          | .dict d => processLegacyFormat d query
          | _ => .error "AttributeError"
        else .ok (data, [], [])
      match processed with
      | .error e => .error e
      | .ok (enhanced, featureEncoders, schemaList) =>
          if fmt ≠ "direct" ∧ fmt ≠ "legacy" then
            .ok (data, [], [])
          else if qActive query || featureEncoders.isEmpty then
            .ok (enhanced, featureEncoders.map .single, schemaList)
          else
            .ok (enhanced,
              [.aggregated "mixed" ((featureEncoders.map (·.data)).flatten)
                featureEncoders.length supportedDataTypes],
              schemaList)

/-! ### Schema offset chaining -/

/-- Sum of the `length` fields of a schema list. -/
def sumLen (sch : List SchemaEntry) : Nat := (sch.map (·.length)).sum

/-- The offsets of a schema list form a contiguous chain starting at `k`. -/
def chainFrom : Nat → List SchemaEntry → Prop
  | _, [] => True
  | k, e :: rest => e.offset = k ∧ chainFrom (k + e.length) rest

theorem chainFrom_append {s1 s2 : List SchemaEntry} {k : Nat}
    (h1 : chainFrom k s1) (h2 : chainFrom (k + sumLen s1) s2) :
    chainFrom k (s1 ++ s2) := by
  induction s1 generalizing k with
  | nil => simpa [sumLen] using h2
  | cons e r ih =>
      obtain ⟨he, hr⟩ := h1
      refine ⟨he, ih hr ?_⟩
      have : k + e.length + sumLen r = k + sumLen (e :: r) := by
        simp [sumLen]; ring
      rw [this]; exact h2

theorem chainFrom_get : ∀ (l : List SchemaEntry) (k : Nat), chainFrom k l →
    ∀ i (h1 : i + 1 < l.length) (h2 : i < l.length),
      (l.get ⟨i + 1, h1⟩).offset = (l.get ⟨i, h2⟩).offset + (l.get ⟨i, h2⟩).length
  | [], _, _, i, h1, _ => absurd h1 (by simp)
  | e :: rest, k, h, 0, h1, _ => by
      obtain ⟨he, hr⟩ := h
      cases rest with
      | nil => simp at h1
      | cons e2 r2 =>
          obtain ⟨he2, _⟩ := hr
          simp [he, he2]
  | e :: rest, k, h, i + 1, h1, h2 => by
      obtain ⟨_, hr⟩ := h
      simpa using
        chainFrom_get rest (k + e.length) hr i (by simpa using h1) (by simpa using h2)

theorem chainFrom_zero_head {l : List SchemaEntry} (h : chainFrom 0 l)
    (hl : 0 < l.length) : (l.get ⟨0, hl⟩).offset = 0 := by
  cases l with
  | nil => simp at hl
  | cons e rest => exact h.1

/-- Flattening lists whose lengths agree index-wise with a schema gives the
schema length sum. -/
theorem flatten_length_eq_sum : ∀ (ds : List (List JVal)) (sch : List SchemaEntry),
    ds.length = sch.length →
    (∀ i (h1 : i < ds.length) (h2 : i < sch.length),
        (ds.get ⟨i, h1⟩).length = (sch.get ⟨i, h2⟩).length) →
    ds.flatten.length = sumLen sch
  | [], [], _, _ => by simp [sumLen]
  | [], e :: r, h, _ => by simp at h
  | d :: ds, [], h, _ => by simp at h
  | d :: ds, e :: r, h, hi => by
      have h0 := hi 0 (by simp) (by simp)
      have hrec := flatten_length_eq_sum ds r (by simpa using h)
        (fun i h1 h2 => by simpa using hi (i + 1) (by simpa using h1) (by simpa using h2))
      simp [sumLen] at hrec ⊢
      simp at h0
      omega

/-! ### Loop invariants: offsets chain, one encoder per schema entry -/

theorem processDirectLoop_spec (query : Option String) (meta : JVal) :
    ∀ (entries : List (String × JVal)) (off : Nat) pe encs sch off',
      processDirectLoop query meta entries off = .ok (pe, encs, sch, off') →
      encs.length = sch.length ∧ chainFrom off sch ∧ off' = off + sumLen sch := by
  intro entries
  induction entries with
  | nil =>
      intro off pe encs sch off' h
      simp only [processDirectLoop, Except.ok.injEq, Prod.mk.injEq] at h
      obtain ⟨h1, h2, h3, h4⟩ := h
      subst h2; subst h3; subst h4
      simp [chainFrom, sumLen]
  | cons p rest ih =>
      intro off pe encs sch off' h
      obtain ⟨featureName, featureStats⟩ := p
      simp only [processDirectLoop] at h
      by_cases hq : (qActive query && decide (featureName ≠ query.getD "")) = true
      · rw [if_pos hq] at h
        cases hrec : processDirectLoop query meta rest off with
        | error e => rw [hrec] at h; exact absurd h (by simp)
        | ok r =>
            obtain ⟨pe2, encs2, sch2, off2⟩ := r
            rw [hrec] at h
            simp only [Except.ok.injEq, Prod.mk.injEq] at h
            obtain ⟨h1, h2, h3, h4⟩ := h
            subst h2; subst h3; subst h4
            exact ih _ _ _ _ _ hrec
      · rw [if_neg hq] at h
        cases hdt : getFeatureDataType featureName featureStats meta with
        | error e => rw [hdt] at h; exact absurd h (by simp)
        | ok dataType =>
            rw [hdt] at h; dsimp only at h
            by_cases hu : jEqStr dataType "UNKNOWN" = true
            · rw [if_pos hu] at h
              cases hrec : processDirectLoop query meta rest off with
              | error e => rw [hrec] at h; exact absurd h (by simp)
              | ok r =>
                  obtain ⟨pe2, encs2, sch2, off2⟩ := r
                  rw [hrec] at h
                  simp only [Except.ok.injEq, Prod.mk.injEq] at h
                  obtain ⟨h1, h2, h3, h4⟩ := h
                  subst h2; subst h3; subst h4
                  exact ih _ _ _ _ _ hrec
            · rw [if_neg hu] at h
              by_cases hd : jEqStr dataType "DATETIME" = true
              · rw [if_pos hd] at h
                cases hrec : processDirectLoop query meta rest off with
                | error e => rw [hrec] at h; exact absurd h (by simp)
                | ok r =>
                    obtain ⟨pe2, encs2, sch2, off2⟩ := r
                    rw [hrec] at h
                    simp only [Except.ok.injEq, Prod.mk.injEq] at h
                    obtain ⟨h1, h2, h3, h4⟩ := h
                    subst h2; subst h3; subst h4
                    exact ih _ _ _ _ _ hrec
              · rw [if_neg hd] at h
                cases henc : createEncoderForFeature (.str featureName) dataType featureStats with
                | error e => rw [henc] at h; exact absurd h (by simp)
                | ok enc =>
                    rw [henc] at h; dsimp only at h
                    cases featureStats with
                    | dict fs =>
                        cases hvk : getVectorizerJ dataType with
                        | error e => rw [hvk] at h; exact absurd h (by simp)
                        | ok vk =>
                            rw [hvk] at h; dsimp only at h
                            cases hrec : processDirectLoop query meta rest
                                (off + vk.vectorLength) with
                            | error e => rw [hrec] at h; exact absurd h (by simp)
                            | ok r =>
                                obtain ⟨pe2, encs2, sch2, off2⟩ := r
                                rw [hrec] at h
                                simp only [Except.ok.injEq, Prod.mk.injEq] at h
                                obtain ⟨h1, h2, h3, h4⟩ := h
                                subst h2; subst h3; subst h4
                                obtain ⟨hlen, hchain, hoff⟩ := ih _ _ _ _ _ hrec
                                refine ⟨by simpa using hlen, ⟨rfl, hchain⟩, ?_⟩
                                simp only [sumLen, List.map_cons, List.sum_cons] at hoff ⊢
                                omega
                    | null => exact absurd h (by simp)
                    | int n => exact absurd h (by simp)
                    | float q => exact absurd h (by simp)
                    | str s => exact absurd h (by simp)
                    | list l => exact absurd h (by simp)

theorem processLegacyFeatures_spec (query : Option String) :
    ∀ (feats : List JVal) (off : Nat) fs' encs sch off',
      processLegacyFeatures query feats off = .ok (fs', encs, sch, off') →
      encs.length = sch.length ∧ chainFrom off sch ∧ off' = off + sumLen sch := by
  intro feats
  induction feats with
  | nil =>
      intro off fs' encs sch off' h
      simp only [processLegacyFeatures, Except.ok.injEq, Prod.mk.injEq] at h
      obtain ⟨h1, h2, h3, h4⟩ := h
      subst h2; subst h3; subst h4
      simp [chainFrom, sumLen]
  | cons f rest ih =>
      intro off fs' encs sch off' h
      cases f with
      | dict fd =>
          simp only [processLegacyFeatures] at h
          by_cases hq : (qActive query && !jEqStr (pyGetD fd "name" .null) (query.getD "")) = true
          · rw [if_pos hq] at h
            cases hrec : processLegacyFeatures query rest off with
            | error e => rw [hrec] at h; exact absurd h (by simp)
            | ok r =>
                obtain ⟨fs2, encs2, sch2, off2⟩ := r
                rw [hrec] at h
                simp only [Except.ok.injEq, Prod.mk.injEq] at h
                obtain ⟨h1, h2, h3, h4⟩ := h
                subst h2; subst h3; subst h4
                exact ih _ _ _ _ _ hrec
          · rw [if_neg hq] at h
            cases hup : pyUpper (pyGetD fd "dataType" (.str "")) with
            | error e => rw [hup] at h; exact absurd h (by simp)
            | ok dataTypeU =>
                rw [hup] at h; dsimp only at h
                by_cases hb : dataTypeU = "BOOLEAN"
                · rw [if_pos hb] at h
                  cases hcb : createEncoderForBooleanFeature fd with
                  | error e => rw [hcb] at h; exact absurd h (by simp)
                  | ok r0 =>
                      obtain ⟨fd', enc⟩ := r0
                      rw [hcb] at h; dsimp only at h
                      cases hrec : processLegacyFeatures query rest (off + 2) with
                      | error e => rw [hrec] at h; exact absurd h (by simp)
                      | ok r =>
                          obtain ⟨fs2, encs2, sch2, off2⟩ := r
                          rw [hrec] at h
                          simp only [Except.ok.injEq, Prod.mk.injEq] at h
                          obtain ⟨h1, h2, h3, h4⟩ := h
                          subst h2; subst h3; subst h4
                          obtain ⟨hlen, hchain, hoff⟩ := ih _ _ _ _ _ hrec
                          refine ⟨by simpa using hlen, ⟨rfl, hchain⟩, ?_⟩
                          simp only [sumLen, List.map_cons, List.sum_cons] at hoff ⊢
                          omega
                · rw [if_neg hb] at h
                  by_cases he : (dataTypeU = "NUMERIC" ∨ dataTypeU = "NOMINAL" ∨
                      dataTypeU = "ORDINAL")
                  · rw [if_pos he] at h
                    cases hce : createEncoderForFeature (pyGetD fd "name" .null)
                        (.str dataTypeU) (pyGetD fd "statistics" (.dict [])) with
                    | error e => rw [hce] at h; exact absurd h (by simp)
                    | ok enc =>
                        rw [hce] at h; dsimp only at h
                        cases hrec : processLegacyFeatures query rest
                            (off + (getVectorizerStr dataTypeU).vectorLength) with
                        | error e => rw [hrec] at h; exact absurd h (by simp)
                        | ok r =>
                            obtain ⟨fs2, encs2, sch2, off2⟩ := r
                            rw [hrec] at h
                            simp only [Except.ok.injEq, Prod.mk.injEq] at h
                            obtain ⟨h1, h2, h3, h4⟩ := h
                            subst h2; subst h3; subst h4
                            obtain ⟨hlen, hchain, hoff⟩ := ih _ _ _ _ _ hrec
                            refine ⟨by simpa using hlen, ⟨rfl, hchain⟩, ?_⟩
                            simp only [sumLen, List.map_cons, List.sum_cons] at hoff ⊢
                            omega
                  · rw [if_neg he] at h
                    cases hrec : processLegacyFeatures query rest off with
                    | error e => rw [hrec] at h; exact absurd h (by simp)
                    | ok r =>
                        obtain ⟨fs2, encs2, sch2, off2⟩ := r
                        rw [hrec] at h
                        simp only [Except.ok.injEq, Prod.mk.injEq] at h
                        obtain ⟨h1, h2, h3, h4⟩ := h
                        subst h2; subst h3; subst h4
                        exact ih _ _ _ _ _ hrec
      | null => exact absurd h (by simp [processLegacyFeatures])
      | int n => exact absurd h (by simp [processLegacyFeatures])
      | float q => exact absurd h (by simp [processLegacyFeatures])
      | str st => exact absurd h (by simp [processLegacyFeatures])
      | list l => exact absurd h (by simp [processLegacyFeatures])

theorem processLegacyEntries_spec (query : Option String) :
    ∀ (entries : List JVal) (off : Nat) es' encs sch off',
      processLegacyEntries query entries off = .ok (es', encs, sch, off') →
      encs.length = sch.length ∧ chainFrom off sch ∧ off' = off + sumLen sch := by
  intro entries
  induction entries with
  | nil =>
      intro off es' encs sch off' h
      simp only [processLegacyEntries, Except.ok.injEq, Prod.mk.injEq] at h
      obtain ⟨h1, h2, h3, h4⟩ := h
      subst h2; subst h3; subst h4
      simp [chainFrom, sumLen]
  | cons e rest ih =>
      intro off es' encs sch off' h
      cases e with
      | dict ed =>
          simp only [processLegacyEntries] at h
          cases hfs : dlookup ed "featureSet" with
          | none =>
              rw [hfs] at h; dsimp only at h
              cases hrec : processLegacyEntries query rest off with
              | error err => rw [hrec] at h; exact absurd h (by simp)
              | ok r =>
                  obtain ⟨es2, encs2, sch2, off2⟩ := r
                  rw [hrec] at h
                  simp only [Except.ok.injEq, Prod.mk.injEq] at h
                  obtain ⟨h1, h2, h3, h4⟩ := h
                  subst h2; subst h3; subst h4
                  exact ih _ _ _ _ _ hrec
          | some fsv =>
              rw [hfs] at h
              cases fsv with
              | dict fsd =>
                  dsimp only at h
                  cases hft : dlookup fsd "features" with
                  | none =>
                      rw [hft] at h; dsimp only at h
                      cases hrec : processLegacyEntries query rest off with
                      | error err => rw [hrec] at h; exact absurd h (by simp)
                      | ok r =>
                          obtain ⟨es2, encs2, sch2, off2⟩ := r
                          rw [hrec] at h
                          simp only [Except.ok.injEq, Prod.mk.injEq] at h
                          obtain ⟨h1, h2, h3, h4⟩ := h
                          subst h2; subst h3; subst h4
                          exact ih _ _ _ _ _ hrec
                  | some fv =>
                      rw [hft] at h
                      cases fv with
                      | list feats =>
                          dsimp only at h
                          cases hf : processLegacyFeatures query feats off with
                          | error err => rw [hf] at h; exact absurd h (by simp)
                          | ok r1 =>
                              obtain ⟨feats', encs1, sch1, off1⟩ := r1
                              rw [hf] at h; dsimp only at h
                              cases hrec : processLegacyEntries query rest off1 with
                              | error err => rw [hrec] at h; exact absurd h (by simp)
                              | ok r =>
                                  obtain ⟨es2, encs2, sch2, off2⟩ := r
                                  rw [hrec] at h
                                  simp only [Except.ok.injEq, Prod.mk.injEq] at h
                                  obtain ⟨h1, h2, h3, h4⟩ := h
                                  subst h2; subst h3; subst h4
                                  obtain ⟨hl1, hc1, ho1⟩ :=
                                    processLegacyFeatures_spec query _ _ _ _ _ _ hf
                                  obtain ⟨hl2, hc2, ho2⟩ := ih _ _ _ _ _ hrec
                                  subst ho1
                                  refine ⟨by simp [hl1, hl2], chainFrom_append hc1 hc2, ?_⟩
                                  simp only [sumLen, List.map_append, List.sum_append] at ho2 ⊢
                                  omega
                      | dict d0 =>
                          dsimp only at h
                          by_cases hd0 : d0.isEmpty = true
                          · rw [if_pos hd0] at h
                            cases hrec : processLegacyEntries query rest off with
                            | error err => rw [hrec] at h; exact absurd h (by simp)
                            | ok r =>
                                obtain ⟨es2, encs2, sch2, off2⟩ := r
                                rw [hrec] at h
                                simp only [Except.ok.injEq, Prod.mk.injEq] at h
                                obtain ⟨h1, h2, h3, h4⟩ := h
                                subst h2; subst h3; subst h4
                                exact ih _ _ _ _ _ hrec
                          · rw [if_neg hd0] at h; exact absurd h (by simp)
                      | str st =>
                          dsimp only at h
                          by_cases hst : st = ""
                          · rw [if_pos hst] at h
                            cases hrec : processLegacyEntries query rest off with
                            | error err => rw [hrec] at h; exact absurd h (by simp)
                            | ok r =>
                                obtain ⟨es2, encs2, sch2, off2⟩ := r
                                rw [hrec] at h
                                simp only [Except.ok.injEq, Prod.mk.injEq] at h
                                obtain ⟨h1, h2, h3, h4⟩ := h
                                subst h2; subst h3; subst h4
                                exact ih _ _ _ _ _ hrec
                          · rw [if_neg hst] at h; exact absurd h (by simp)
                      | null => exact absurd h (by simp)
                      | int n => exact absurd h (by simp)
                      | float q => exact absurd h (by simp)
              | null => exact absurd h (by simp)
              | int n => exact absurd h (by simp)
              | float q => exact absurd h (by simp)
              | str st => exact absurd h (by simp)
              | list l => exact absurd h (by simp)
      | null => exact absurd h (by simp [processLegacyEntries])
      | int n => exact absurd h (by simp [processLegacyEntries])
      | float q => exact absurd h (by simp [processLegacyEntries])
      | str st => exact absurd h (by simp [processLegacyEntries])
      | list l => exact absurd h (by simp [processLegacyEntries])

theorem processDirectFormat_spec (data : List (String × JVal)) (query : Option String)
    (d' : JVal) (encs : List EncoderObj) (sch : List SchemaEntry)
    (h : processDirectFormat data query = .ok (d', encs, sch)) :
    encs.length = sch.length ∧ chainFrom 0 sch := by
  unfold processDirectFormat at h
  cases hE : (dlookup data "entries").getD (.dict []) with
  | dict entries =>
      rw [hE] at h; dsimp only at h
      cases hl : processDirectLoop query (pyGetD data "features" (.list [])) entries 0 with
      | error e => rw [hl] at h; exact absurd h (by simp)
      | ok r =>
          obtain ⟨pe, encs2, sch2, off2⟩ := r
          rw [hl] at h
          simp only [Except.ok.injEq, Prod.mk.injEq] at h
          obtain ⟨h1, h2, h3⟩ := h
          subst h2; subst h3
          obtain ⟨hlen, hchain, _⟩ := processDirectLoop_spec query _ _ _ _ _ _ _ hl
          exact ⟨hlen, hchain⟩
  | null => rw [hE] at h; exact absurd h (by simp)
  | int n => rw [hE] at h; exact absurd h (by simp)
  | float q => rw [hE] at h; exact absurd h (by simp)
  | str st => rw [hE] at h; exact absurd h (by simp)
  | list l => rw [hE] at h; exact absurd h (by simp)

theorem processLegacyFormat_spec (data : List (String × JVal)) (query : Option String)
    (d' : JVal) (encs : List EncoderObj) (sch : List SchemaEntry)
    (h : processLegacyFormat data query = .ok (d', encs, sch)) :
    encs.length = sch.length ∧ chainFrom 0 sch := by
  unfold processLegacyFormat at h
  cases hE : dlookup data "entries" with
  | none =>
      rw [hE] at h
      simp only [Except.ok.injEq, Prod.mk.injEq] at h
      obtain ⟨h1, h2, h3⟩ := h
      subst h2; subst h3
      simp [chainFrom]
  | some v =>
      rw [hE] at h
      cases v with
      | list entries =>
          dsimp only at h
          cases hl : processLegacyEntries query entries 0 with
          | error e => rw [hl] at h; exact absurd h (by simp)
          | ok r =>
              obtain ⟨es', encs2, sch2, off2⟩ := r
              rw [hl] at h
              simp only [Except.ok.injEq, Prod.mk.injEq] at h
              obtain ⟨h1, h2, h3⟩ := h
              subst h2; subst h3
              obtain ⟨hlen, hchain, _⟩ := processLegacyEntries_spec query _ _ _ _ _ _ hl
              exact ⟨hlen, hchain⟩
      | dict d0 =>
          dsimp only at h
          by_cases hd0 : d0.isEmpty = true
          · rw [if_pos hd0] at h
            simp only [Except.ok.injEq, Prod.mk.injEq] at h
            obtain ⟨h1, h2, h3⟩ := h
            subst h2; subst h3
            simp [chainFrom]
          · rw [if_neg hd0] at h; exact absurd h (by simp)
      | str st =>
          dsimp only at h
          by_cases hst : st = ""
          · rw [if_pos hst] at h
            simp only [Except.ok.injEq, Prod.mk.injEq] at h
            obtain ⟨h1, h2, h3⟩ := h
            subst h2; subst h3
            simp [chainFrom]
          · rw [if_neg hst] at h; exact absurd h (by simp)
      | null => exact absurd h (by simp)
      | int n => exact absurd h (by simp)
      | float q => exact absurd h (by simp)

/-- Shape of a successful enhance_dataset call: some internal per-feature
encoder list explains the result, one encoder per schema entry, offsets
chaining from 0; with a truthy query (or nothing processed) the per-feature
encoders are returned, otherwise the single aggregated encoder. -/
theorem enhanceDataset_shape (data : JVal) (query : Option String)
    (d' : JVal) (encs : List EncoderOut) (sch : List SchemaEntry)
    (h : enhanceDataset data query = .ok (d', encs, sch)) :
    ∃ fencs : List EncoderObj,
      fencs.length = sch.length ∧ chainFrom 0 sch ∧
      ((qActive query || fencs.isEmpty) = true → encs = fencs.map .single) ∧
      ((qActive query || fencs.isEmpty) = false →
        encs = [.aggregated "mixed" ((fencs.map (·.data)).flatten) fencs.length
          supportedDataTypes]) := by
  unfold enhanceDataset at h
  cases hdet : detectDataFormat data with
  | error e => rw [hdet] at h; exact absurd h (by simp)
  | ok fmt =>
      rw [hdet] at h; dsimp only at h
      by_cases hfd : fmt = "direct"
      · rw [if_pos hfd] at h
        cases data with
        | dict d =>
            dsimp only at h
            cases hp : processDirectFormat d query with
            | error e => rw [hp] at h; exact absurd h (by simp)
            | ok r =>
                obtain ⟨enhanced, fencs, schemaList⟩ := r
                rw [hp] at h; dsimp only at h
                rw [if_neg (by simp [hfd])] at h
                obtain ⟨hlen, hchain⟩ := processDirectFormat_spec d query _ _ _ hp
                by_cases hq : (qActive query || fencs.isEmpty) = true
                · rw [if_pos hq] at h
                  simp only [Except.ok.injEq, Prod.mk.injEq] at h
                  obtain ⟨h1, h2, h3⟩ := h
                  subst h2; subst h3
                  exact ⟨fencs, hlen, hchain, fun _ => rfl, fun hq2 => by simp [hq2] at hq⟩
                · rw [if_neg hq] at h
                  simp only [Except.ok.injEq, Prod.mk.injEq] at h
                  obtain ⟨h1, h2, h3⟩ := h
                  subst h2; subst h3
                  refine ⟨fencs, hlen, hchain, fun hq2 => absurd hq2 hq, fun _ => rfl⟩
        | null => exact absurd h (by simp)
        | int n => exact absurd h (by simp)
        | float q0 => exact absurd h (by simp)
        | str st => exact absurd h (by simp)
        | list l => exact absurd h (by simp)
      · rw [if_neg hfd] at h
        by_cases hfl : fmt = "legacy"
        · rw [if_pos hfl] at h
          cases data with
          | dict d =>
              dsimp only at h
              cases hp : processLegacyFormat d query with
              | error e => rw [hp] at h; exact absurd h (by simp)
              | ok r =>
                  obtain ⟨enhanced, fencs, schemaList⟩ := r
                  rw [hp] at h; dsimp only at h
                  rw [if_neg (by simp [hfl])] at h
                  obtain ⟨hlen, hchain⟩ := processLegacyFormat_spec d query _ _ _ hp
                  by_cases hq : (qActive query || fencs.isEmpty) = true
                  · rw [if_pos hq] at h
                    simp only [Except.ok.injEq, Prod.mk.injEq] at h
                    obtain ⟨h1, h2, h3⟩ := h
                    subst h2; subst h3
                    exact ⟨fencs, hlen, hchain, fun _ => rfl,
                      fun hq2 => by simp [hq2] at hq⟩
                  · rw [if_neg hq] at h
                    simp only [Except.ok.injEq, Prod.mk.injEq] at h
                    obtain ⟨h1, h2, h3⟩ := h
                    subst h2; subst h3
                    refine ⟨fencs, hlen, hchain, fun hq2 => absurd hq2 hq, fun _ => rfl⟩
          | null => exact absurd h (by simp)
          | int n => exact absurd h (by simp)
          | float q0 => exact absurd h (by simp)
          | str st => exact absurd h (by simp)
          | list l => exact absurd h (by simp)
        · rw [if_neg hfl] at h; dsimp only at h
          rw [if_pos ⟨hfd, hfl⟩] at h
          simp only [Except.ok.injEq, Prod.mk.injEq] at h
          obtain ⟨h1, h2, h3⟩ := h
          subst h2; subst h3
          exact ⟨[], rfl, by simp [chainFrom], fun _ => rfl, by simp⟩

/-- C2: for every enhance_dataset call, in both direct and legacy formats, the
returned schema list satisfies schema[0].offset = 0 and, for every consecutive
pair, schema[i+1].offset = schema[i].offset + schema[i].length. -/
theorem C2_schema_offsets (data : JVal) (query : Option String) (d' : JVal)
    (encs : List EncoderOut) (sch : List SchemaEntry)
    (h : enhanceDataset data query = .ok (d', encs, sch)) :
    (∀ h0 : 0 < sch.length, (sch.get ⟨0, h0⟩).offset = 0) ∧
    ∀ i (h1 : i + 1 < sch.length) (h2 : i < sch.length),
      (sch.get ⟨i + 1, h1⟩).offset =
        (sch.get ⟨i, h2⟩).offset + (sch.get ⟨i, h2⟩).length := by
  obtain ⟨fencs, _, hchain, _, _⟩ := enhanceDataset_shape data query d' encs sch h
  exact ⟨fun h0 => chainFrom_zero_head hchain h0,
    fun i h1 h2 => chainFrom_get sch 0 hchain i h1 h2⟩

/-- Concrete direct-format dataset: one BOOLEAN and one NUMERIC feature. -/
def c2data : JVal := .dict [("entries", .dict
  [("flag", .dict [("numOfNotNull", .int 100), ("numOfTrue", .int 75)]),
   ("age", .dict [("numOfNotNull", .int 10), ("min", .float 1), ("max", .float 98),
                  ("avg", .float 45), ("q1", .float 25), ("q2", .float 44),
                  ("q3", .float 65)])])]

/-- Schema produced by enhance_dataset on `c2data`. -/
def c2sch : List SchemaEntry :=
  [⟨.str "flag", .str "BOOLEAN", 0, 2, ["numOfNotNull", "numOfTrue"]⟩,
   ⟨.str "age", .str "NUMERIC", 2, 7,
     ["numOfNotNull", "min", "max", "avg", "q1", "q2", "q3"]⟩]

/-- Enhanced dataset produced on `c2data`. -/
def c2enh : JVal := .dict [("entries", .dict
  [("flag", .dict [("numOfNotNull", .int 100), ("numOfTrue", .int 75),
     ("vectorized_statistics", .dict
       [("vectorized", .list [.int 100, .int 75]),
        ("encoder", .dict [("type", .str "int"), ("data", .list [.int 100, .int 75]),
                           ("dataType", .str "BOOLEAN"), ("vectorLength", .int 2)]),
        ("dataType", .str "BOOLEAN")])]),
   ("age", .dict [("numOfNotNull", .int 10), ("min", .float 1), ("max", .float 98),
     ("avg", .float 45), ("q1", .float 25), ("q2", .float 44), ("q3", .float 65),
     ("vectorized_statistics", .dict
       [("vectorized", .list [.int 10, .float 1, .float 98, .float 45, .float 25,
          .float 44, .float 65]),
        ("encoder", .dict [("type", .str "float"),
                           ("data", .list [.int 10, .float 1, .float 98, .float 45,
                             .float 25, .float 44, .float 65]),
                           ("dataType", .str "NUMERIC"), ("vectorLength", .int 7)]),
        ("dataType", .str "NUMERIC")])])])]

/-- Encoders list produced on `c2data`. -/
def c2encs : List EncoderOut :=
  [.aggregated "mixed" [.int 100, .int 75, .int 10, .float 1, .float 98, .float 45,
    .float 25, .float 44, .float 65] 2 supportedDataTypes]

theorem c2eval : enhanceDataset c2data none = .ok (c2enh, c2encs, c2sch) := rfl

/-- Witness for C2 at a concrete two-feature dataset: the second entry's offset
is the first entry's offset plus its length. -/
theorem C2_schema_offsets_witness :
    (c2sch.get ⟨1, by decide⟩).offset =
      (c2sch.get ⟨0, by decide⟩).offset + (c2sch.get ⟨0, by decide⟩).length :=
  (C2_schema_offsets c2data none c2enh c2encs c2sch c2eval).2 0 (by decide) (by decide)

theorem exceptOkBind {α β : Type} (a : α) (f : α → Except String β) :
    (Except.ok a : Except String α) >>= f = f a := rfl

theorem exceptErrorBind {α β : Type} (msg : String) (f : α → Except String β) :
    (Except.error msg : Except String α) >>= f = .error msg := rfl

/-! ### C9: unknown entries shape -/

/-- The `entries` field is absent or neither a mapping nor a sequence. -/
def entriesShapeUnknown (d : List (String × JVal)) : Bool :=
  match dlookup d "entries" with
  | none => true
  | some (.dict _) => false
  | some (.list _) => false
  | some _ => true

theorem any_key_eq_dlookup (d : List (String × JVal)) (k : String) :
    (d.any fun p => decide (p.1 = k)) = (dlookup d k).isSome := by
  induction d with
  | nil => simp [dlookup]
  | cons p rest ih =>
      obtain ⟨k', v⟩ := p
      by_cases hk : k' = k <;> simp [dlookup, hk, ih]

theorem detect_unknown (d : List (String × JVal)) (h : entriesShapeUnknown d = true) :
    detectDataFormat (.dict d) = .ok "unknown" := by
  unfold detectDataFormat pyInStr
  dsimp only
  cases hl : dlookup d "entries" with
  | none =>
      have hany : (d.any fun p => decide (p.1 = "entries")) = false := by
        rw [any_key_eq_dlookup, hl]; rfl
      rw [hany]
  | some v =>
      have hany : (d.any fun p => decide (p.1 = "entries")) = true := by
        rw [any_key_eq_dlookup, hl]; rfl
      rw [hany]; dsimp only
      unfold entriesShapeUnknown at h
      rw [hl] at h
      cases v with
      | dict d0 => exact absurd h (by simp)
      | list l => exact absurd h (by simp)
      | null => rfl
      | int n => rfl
      | float q => rfl
      | str st => rfl

/-- C9: an input whose `entries` field is neither a mapping nor a sequence (or
is absent) makes enhance_dataset raise no exception and return the dataset
unchanged with empty encoders and schema lists. -/
theorem C9_unknown_format (d : List (String × JVal)) (query : Option String)
    (h : entriesShapeUnknown d = true) :
    enhanceDataset (.dict d) query = .ok (.dict d, [], []) := by
  unfold enhanceDataset
  rw [detect_unknown d h]
  simp

/-- Witness for C9: `entries` bound to a number. -/
theorem C9_unknown_format_witness :
    enhanceDataset (.dict [("entries", .int 5)]) none =
      .ok (.dict [("entries", .int 5)], [], []) :=
  C9_unknown_format [("entries", .int 5)] none rfl

/-! ### C8: delegation and single-element fallback -/

/-- C8: vectorize_feature_statistics delegates to the registered vectorizer for
the data type, and when vectorization raises, _create_encoder_for_feature
returns (rather than propagates) the fallback encoder built from the
single-element vector [0]. -/
theorem C8_fallback (dataTypeStr : String) (stats : JVal) (featureName : JVal) :
    vectorizeFeatureStatisticsJ (.str dataTypeStr) stats =
      (getVectorizerStr dataTypeStr).vectorize stats ∧
    (encodeFeatureVectorStr dataTypeStr [.int 0]).data = [.int 0] ∧
    (∀ msg, vectorizeFeatureStatisticsJ (.str dataTypeStr) stats = .error msg →
      createEncoderForFeature featureName (.str dataTypeStr) stats =
        .ok (encodeFeatureVectorStr dataTypeStr [.int 0])) := by
  refine ⟨rfl, rfl, fun msg hmsg => ?_⟩
  unfold createEncoderForFeature
  rw [hmsg]
  rfl

/-- Witness for C8: a NOMINAL record whose valueSet is a number makes `len`
raise, and the encode step returns the [0] fallback. -/
theorem C8_fallback_witness :
    createEncoderForFeature (.str "f") (.str "NOMINAL")
        (.dict [("numOfNotNull", .int 5), ("valueSet", .int 7)]) =
      .ok (encodeFeatureVectorStr "NOMINAL" [.int 0]) :=
  (C8_fallback "NOMINAL" (.dict [("numOfNotNull", .int 5), ("valueSet", .int 7)])
    (.str "f")).2.2 "TypeError" rfl

/-! ### C6: zero-fill -/

/-- C6 counterexample: the boolean vectorizer has no numOfNotNull == 0 guard, so
a record with numOfNotNull = 0 but numOfTrue = 5 vectorizes to [0, 5], not to
the all-zero vector. -/
theorem C6_counterexample :
    boolVectorize (.dict [("numOfNotNull", .int 0), ("numOfTrue", .int 5)]) =
      .ok [.int 0, .int 5] ∧
    ([JVal.int 0, JVal.int 5] : List JVal) ≠ [JVal.int 0, JVal.int 0] :=
  ⟨rfl, by simp⟩

/-- C6 amended: for a record whose numOfNotNull is 0 (or absent), the NUMERIC
and CATEGORICAL vectorizers return their all-zero vectors; the BOOLEAN
vectorizer returns [numOfNotNull, numOfTrue] verbatim, which is the all-zero
vector [0, 0] exactly when numOfTrue is also absent or integer 0. -/
theorem C6_zero_fill (stats : List (String × JVal))
    (h : isZero (pyGetD stats "numOfNotNull" (.int 0)) = true) :
    numericVectorize (.dict stats) =
      .ok [.int 0, .float 0, .float 0, .float 0, .float 0, .float 0, .float 0] ∧
    catVectorize (.dict stats) = .ok [.int 0, .int 0, .int 0] ∧
    ((dlookup stats "numOfNotNull" = none ∨
        dlookup stats "numOfNotNull" = some (.int 0)) →
      (dlookup stats "numOfTrue" = none ∨ dlookup stats "numOfTrue" = some (.int 0)) →
      boolVectorize (.dict stats) = .ok [.int 0, .int 0]) := by
  refine ⟨?_, ?_, fun h1 h2 => ?_⟩
  · simp [numericVectorize, pyDictGet, exceptOkBind, h]
  · simp [catVectorize, pyDictGet, exceptOkBind, h]
  · have e1 : pyGetD stats "numOfNotNull" (.int 0) = .int 0 := by
      rcases h1 with h1 | h1 <;> simp [pyGetD, h1]
    have e2 : pyGetD stats "numOfTrue" (.int 0) = .int 0 := by
      rcases h2 with h2 | h2 <;> simp [pyGetD, h2]
    simp [boolVectorize, pyDictGet, exceptOkBind, e1, e2]

/-- Witness for C6 at a record with numOfNotNull = 0 and no other keys. -/
theorem C6_zero_fill_witness :
    numericVectorize (.dict [("numOfNotNull", .int 0)]) =
      .ok [.int 0, .float 0, .float 0, .float 0, .float 0, .float 0, .float 0] ∧
    catVectorize (.dict [("numOfNotNull", .int 0)]) = .ok [.int 0, .int 0, .int 0] ∧
    boolVectorize (.dict [("numOfNotNull", .int 0)]) = .ok [.int 0, .int 0] :=
  ⟨(C6_zero_fill [("numOfNotNull", .int 0)] rfl).1,
   (C6_zero_fill [("numOfNotNull", .int 0)] rfl).2.1,
   (C6_zero_fill [("numOfNotNull", .int 0)] rfl).2.2 (Or.inr rfl) (Or.inl rfl)⟩

/-! ### C7: categorical vectorization -/

/-- Integer-only view of a JSON list. -/
def allInts : List JVal → Option (List Int)
  | [] => some []
  | .int n :: rest => (allInts rest).map (fun l => n :: l)
  | _ => none

/-- The claim's expected topValueCount: the maximum count across a list- or
dict-shaped cardinalityPerItem of integer counts, 0 when it is empty or of
unrecognized shape; none when the counts are not integers. -/
def claimTop : JVal → Option Int
  | .list l =>
      if l.isEmpty then some 0
      else
        match allInts l with
        | some (i :: is) => some (is.foldl max i)
        | _ => none
  | .dict d =>
      if d.isEmpty then some 0
      else
        match allInts (d.map (·.2)) with
        | some (i :: is) => some (is.foldl max i)
        | _ => none
  | _ => some 0

theorem allInts_map {l : List JVal} {xs : List Int} (h : allInts l = some xs) :
    l = xs.map JVal.int := by
  induction l generalizing xs with
  | nil => simp only [allInts, Option.some.injEq] at h; subst h; rfl
  | cons x rest ih =>
      cases x with
      | int n =>
          simp only [allInts, Option.map_eq_some'] at h
          obtain ⟨ys, hys, hcons⟩ := h
          subst hcons
          simp [ih hys]
      | null => exact absurd h (by simp [allInts])
      | float q => exact absurd h (by simp [allInts])
      | str st => exact absurd h (by simp [allInts])
      | list l0 => exact absurd h (by simp [allInts])
      | dict d0 => exact absurd h (by simp [allInts])

theorem pyMaxAux_ints (xs : List Int) : ∀ (c : Int),
    pyMaxAux (.int c) (xs.map JVal.int) = .ok (.int (xs.foldl max c)) := by
  induction xs with
  | nil => intro c; rfl
  | cons x rest ih =>
      intro c
      simp only [List.map_cons, pyMaxAux, pyCmp, List.foldl_cons]
      rcases lt_trichotomy x c with hlt | heq | hgt
      · rw [if_pos hlt]; dsimp only
        rw [max_eq_left (le_of_lt hlt)]
        exact ih c
      · subst heq
        rw [if_neg (lt_irrefl x), if_neg (lt_irrefl x)]; dsimp only
        rw [max_self]
        exact ih x
      · rw [if_neg (by omega), if_pos hgt]; dsimp only
        rw [max_eq_right (le_of_lt hgt)]
        exact ih x

theorem pyMax_ints {l : List JVal} {i : Int} {is : List Int}
    (h : allInts l = some (i :: is)) : pyMax l = .ok (.int (is.foldl max i)) := by
  rw [allInts_map h]
  simp only [List.map_cons, pyMax]
  exact pyMaxAux_ints is i

/-- C7: for a categorical record with non-zero numOfNotNull, vectorize returns
[numOfNotNull, count of valueSet, topValueCount] with topValueCount the maximum
of the list- or dict-shaped integer counts and 0 for an absent, empty or
unrecognized cardinalityPerItem. -/
theorem C7_categorical (stats : List (String × JVal)) (n : JVal) (vs : List JVal)
    (t : Int)
    (hn : pyGetD stats "numOfNotNull" (.int 0) = n)
    (hnz : isZero n = false)
    (hvs : pyGetD stats "valueSet" (.list []) = .list vs)
    (ht : claimTop (pyGetD stats "cardinalityPerItem" (.list [])) = some t) :
    catVectorize (.dict stats) = .ok [n, .int vs.length, .int t] := by
  unfold catVectorize
  simp only [pyDictGet, exceptOkBind, hn, hnz, Bool.false_eq_true, if_false, hvs]
  simp only [pyLen, exceptOkBind]
  cases hc : pyGetD stats "cardinalityPerItem" (.list []) with
  | list l =>
      rw [hc] at ht
      by_cases hl : l.isEmpty
      · simp only [claimTop, hl, if_true, Option.some.injEq] at ht
        subst ht
        simp [hl, exceptOkBind]
      · simp only [claimTop, hl, Bool.false_eq_true, if_false] at ht
        cases hai : allInts l with
        | none => rw [hai] at ht; exact absurd ht (by simp)
        | some xs =>
            cases xs with
            | nil => exact absurd (allInts_map hai) (by simpa [List.isEmpty_iff] using hl)
            | cons i is =>
                rw [hai] at ht
                simp only [Option.some.injEq] at ht
                subst ht
                simp [hl, pyMax_ints hai, exceptOkBind]
  | dict d =>
      rw [hc] at ht
      by_cases hd : d.isEmpty
      · simp only [claimTop, hd, if_true, Option.some.injEq] at ht
        subst ht
        simp [hd, exceptOkBind]
      · simp only [claimTop, hd, Bool.false_eq_true, if_false] at ht
        cases hai : allInts (d.map (·.2)) with
        | none => rw [hai] at ht; exact absurd ht (by simp)
        | some xs =>
            cases xs with
            | nil =>
                have hmap : d.map (·.2) = [] := by simpa using allInts_map hai
                have hdnil : d = [] := by simpa using hmap
                exact absurd hdnil (by simpa [List.isEmpty_iff] using hd)
            | cons i is =>
                rw [hai] at ht
                simp only [Option.some.injEq] at ht
                subst ht
                simp [hd, pyMax_ints hai, exceptOkBind]
  | null => rw [hc] at ht; simp only [claimTop, Option.some.injEq] at ht; subst ht; simp [exceptOkBind]
  | int m => rw [hc] at ht; simp only [claimTop, Option.some.injEq] at ht; subst ht; simp [exceptOkBind]
  | float q => rw [hc] at ht; simp only [claimTop, Option.some.injEq] at ht; subst ht; simp [exceptOkBind]
  | str st => rw [hc] at ht; simp only [claimTop, Option.some.injEq] at ht; subst ht; simp [exceptOkBind]

/-- Witness for C7: the spec's concrete scenario, numOfNotNull = 14,
four distinct values, cardinality mapping with maximum 7, giving [14, 4, 7]. -/
theorem C7_categorical_witness :
    catVectorize (.dict
      [("numOfNotNull", .int 14),
       ("valueSet", .list [.str "2014", .str "2020", .str "2024", .str "2022"]),
       ("cardinalityPerItem", .dict
         [("2014", .int 1), ("2020", .int 1), ("2024", .int 5), ("2022", .int 7)])]) =
      .ok [.int 14, .int 4, .int 7] :=
  C7_categorical _ (.int 14) [.str "2014", .str "2020", .str "2024", .str "2022"] 7
    rfl rfl rfl rfl

/-! ### C4: type inference precedence -/

/-- Key presence in a statistics record. -/
def hasKey (fd : List (String × JVal)) (k : String) : Bool := (dlookup fd k).isSome

/-- The statistic keys the inference step recognizes. -/
def recognizedKeys : List String :=
  ["numOfTrue", "valueSet", "cardinalityPerItem", "min", "max", "avg", "numOfNotNull"]

/-- Modelled from the claim's words for C4: the same precedence, with DATETIME
requiring numOfNotNull present and no other recognized keys. -/
def claimInferredType (fd : List (String × JVal)) : String :=
  if hasKey fd "numOfTrue" then "BOOLEAN"
  else if hasKey fd "valueSet" && hasKey fd "cardinalityPerItem" then "NOMINAL"
  else if hasKey fd "min" && hasKey fd "max" && hasKey fd "avg" then "NUMERIC"
  else if hasKey fd "numOfNotNull" &&
      fd.all (fun p => p.1 == "numOfNotNull" || !(recognizedKeys.contains p.1)) then
    "DATETIME"
  else "UNKNOWN"

/-- C4 counterexample: a record holding numOfNotNull plus one unrecognized key
is DATETIME under the claim's reading but UNKNOWN in the code, which demands
numOfNotNull be the only key at all (len == 1). -/
theorem C4_counterexample :
    claimInferredType [("numOfNotNull", .int 5), ("foo", .int 1)] = "DATETIME" ∧
    getFeatureDataType "x" (.dict [("numOfNotNull", .int 5), ("foo", .int 1)])
        (.list []) = .ok (.str "UNKNOWN") ∧
    ("DATETIME" : String) ≠ "UNKNOWN" :=
  ⟨rfl, rfl, by decide⟩

/-- Inference with the code's DATETIME condition: numOfNotNull present and the
record has exactly one key. -/
def amendedInferredType (fd : List (String × JVal)) : String :=
  if hasKey fd "numOfTrue" then "BOOLEAN"
  else if hasKey fd "valueSet" && hasKey fd "cardinalityPerItem" then "NOMINAL"
  else if hasKey fd "min" && hasKey fd "max" && hasKey fd "avg" then "NUMERIC"
  else if hasKey fd "numOfNotNull" && fd.length == 1 then "DATETIME"
  else "UNKNOWN"

theorem metaFind_none (featureName : String) : ∀ (ms : List JVal),
    (∀ m ∈ ms, ∃ md, m = JVal.dict md ∧ metaNameMatches md featureName = false) →
    metaFind featureName ms = .ok none := by
  intro ms
  induction ms with
  | nil => intro _; rfl
  | cons m rest ih =>
      intro hmeta
      obtain ⟨md, hm, hnm⟩ := hmeta m (by simp)
      subst hm
      simp only [metaFind, hnm, Bool.false_eq_true, if_false]
      exact ih (fun m2 hm2 => hmeta m2 (by simp [hm2]))

/-- C4 amended: for a feature not matched by the explicit features metadata,
the inferred type follows the code's precedence, with DATETIME requiring
numOfNotNull to be the sole key of the record. -/
theorem inferTypeFromShape_dict (fd : List (String × JVal)) :
    inferTypeFromShape (.dict fd) = .ok (.str (amendedInferredType fd)) := by
  unfold inferTypeFromShape
  simp only [pyInStr, pyLen, exceptOkBind, any_key_eq_dlookup]
  unfold amendedInferredType hasKey
  by_cases h1 : (dlookup fd "numOfTrue").isSome = true
  · simp [h1]
  · simp only [h1, Bool.false_eq_true, if_false]
    by_cases h2 : (dlookup fd "valueSet").isSome = true
    · simp only [h2, if_true, exceptOkBind, Bool.true_and]
      by_cases h3 : (dlookup fd "cardinalityPerItem").isSome = true
      · simp [h3]
      · simp only [h3, Bool.false_eq_true, if_false, exceptOkBind]
        by_cases h4 : (dlookup fd "min").isSome = true
        · simp only [h4, if_true, exceptOkBind, Bool.true_and]
          by_cases h5 : (dlookup fd "max").isSome = true
          · simp only [h5, if_true, exceptOkBind, Bool.true_and]
            by_cases h6 : (dlookup fd "avg").isSome = true
            · simp [h6]
            · simp only [h6, Bool.false_eq_true, if_false, exceptOkBind]
              by_cases h7 : (dlookup fd "numOfNotNull").isSome = true
              · simp [h7]; split <;> rfl
              · simp [h7]
          · simp only [h5, Bool.false_eq_true, if_false, exceptOkBind, Bool.and_false,
              Bool.false_and]
            by_cases h7 : (dlookup fd "numOfNotNull").isSome = true
            · simp [h5, h7]; split <;> rfl
            · simp [h5, h7]
        · simp only [h4, Bool.false_eq_true, if_false, exceptOkBind, Bool.false_and]
          by_cases h7 : (dlookup fd "numOfNotNull").isSome = true
          · simp [h4, h7]; split <;> rfl
          · simp [h4, h7]
    · simp only [h2, Bool.false_eq_true, if_false, exceptOkBind, Bool.false_and]
      by_cases h4 : (dlookup fd "min").isSome = true
      · simp only [h4, if_true, exceptOkBind, Bool.true_and]
        by_cases h5 : (dlookup fd "max").isSome = true
        · simp only [h5, if_true, exceptOkBind, Bool.true_and]
          by_cases h6 : (dlookup fd "avg").isSome = true
          · simp [h2, h6]
          · simp only [h6, Bool.false_eq_true, if_false, exceptOkBind]
            by_cases h7 : (dlookup fd "numOfNotNull").isSome = true
            · simp [h2, h7]; split <;> rfl
            · simp [h2, h7]
        · simp only [h5, Bool.false_eq_true, if_false, exceptOkBind, Bool.and_false,
            Bool.false_and]
          by_cases h7 : (dlookup fd "numOfNotNull").isSome = true
          · simp [h2, h5, h7]; split <;> rfl
          · simp [h2, h5, h7]
      · simp only [h4, Bool.false_eq_true, if_false, exceptOkBind, Bool.false_and]
        by_cases h7 : (dlookup fd "numOfNotNull").isSome = true
        · simp [h2, h4, h7]; split <;> rfl
        · simp [h2, h4, h7]

/-- C4 amended: for a feature not matched by the explicit features metadata,
the inferred type follows the code's precedence, with DATETIME requiring
numOfNotNull to be the sole key of the record. -/
theorem C4_type_inference (featureName : String) (fd : List (String × JVal))
    (ms : List JVal)
    (hmeta : ∀ m ∈ ms, ∃ md, m = JVal.dict md ∧ metaNameMatches md featureName = false) :
    getFeatureDataType featureName (.dict fd) (.list ms) =
      .ok (.str (amendedInferredType fd)) := by
  have hmf : metaFind featureName ms = .ok none := metaFind_none featureName ms hmeta
  unfold getFeatureDataType
  by_cases hms : truthy (.list ms) = true
  · rw [if_pos hms]
    dsimp only
    rw [hmf, exceptOkBind]
    exact inferTypeFromShape_dict fd
  · rw [if_neg hms]
    rw [exceptOkBind]
    exact inferTypeFromShape_dict fd

/-- Witness for C4: a record with only numOfNotNull infers DATETIME. -/
theorem C4_type_inference_witness :
    getFeatureDataType "x" (.dict [("numOfNotNull", .int 9)]) (.list []) =
      .ok (.str (amendedInferredType [("numOfNotNull", .int 9)])) :=
  C4_type_inference "x" [("numOfNotNull", .int 9)] [] (by simp)

/-! ### C1: aggregation -/

/-- Direct dataset with one NOMINAL feature whose cardinality list mixes an
integer and a string, so Python max raises and the [0] fallback fires. -/
def c1data : JVal := .dict [("entries", .dict [("f", .dict
  [("numOfNotNull", .int 5), ("valueSet", .list [.str "a", .str "b"]),
   ("cardinalityPerItem", .list [.int 1, .str "x"])])])]

/-- Enhanced dataset produced on `c1data`: the fallback vector [0]. -/
def c1enh : JVal := .dict [("entries", .dict [("f", .dict
  [("numOfNotNull", .int 5), ("valueSet", .list [.str "a", .str "b"]),
   ("cardinalityPerItem", .list [.int 1, .str "x"]),
   ("vectorized_statistics", .dict
     [("vectorized", .list [.int 0]),
      ("encoder", .dict [("type", .str "int"), ("data", .list [.int 0]),
                         ("dataType", .str "NOMINAL"), ("vectorLength", .int 1)]),
      ("dataType", .str "NOMINAL")])])])]

/-- C1 counterexample: the aggregated encoder's data is the single-element
fallback [0], while the schema declares length 3 for the feature, so
len(data) differs from the sum of the schema length fields. -/
theorem C1_counterexample :
    enhanceDataset c1data none = .ok (c1enh,
      [.aggregated "mixed" [.int 0] 1 supportedDataTypes],
      [⟨.str "f", .str "NOMINAL", 0, 3,
        ["numOfNotNull", "numUniqueValues", "topValueCount"]⟩]) ∧
    [JVal.int 0].length ≠ sumLen [⟨.str "f", .str "NOMINAL", 0, 3,
      ["numOfNotNull", "numUniqueValues", "topValueCount"]⟩] :=
  ⟨rfl, by decide⟩

/-- C1 amended: with no query and a non-empty schema, enhance_dataset returns
exactly one aggregated encoder whose data is the concatenation, in schema
order, of the per-feature encoders' data (one per schema entry); the length of
that data equals the sum of the schema length fields whenever every
per-feature vector has its schema entry's declared length (true except for the
single-element [0] fallback on a vectorization error). -/
theorem C1_aggregation (data d' : JVal) (encs : List EncoderOut)
    (sch : List SchemaEntry)
    (h : enhanceDataset data none = .ok (d', encs, sch)) (hne : sch ≠ []) :
    ∃ fencs : List EncoderObj,
      fencs.length = sch.length ∧
      encs = [.aggregated "mixed" ((fencs.map (·.data)).flatten) fencs.length
        supportedDataTypes] ∧
      ((∀ i (h1 : i < fencs.length) (h2 : i < sch.length),
          ((fencs.get ⟨i, h1⟩).data).length = (sch.get ⟨i, h2⟩).length) →
        ((fencs.map (·.data)).flatten).length = sumLen sch) := by
  obtain ⟨fencs, hlen, _, _, hagg⟩ := enhanceDataset_shape data none d' encs sch h
  have hfe : fencs.isEmpty = false := by
    cases fencs with
    | nil => exact absurd (List.length_eq_zero.mp hlen.symm) hne
    | cons a l => rfl
  refine ⟨fencs, hlen, hagg (by simp [qActive, hfe]), fun hall => ?_⟩
  apply flatten_length_eq_sum (fencs.map (·.data)) sch (by simpa using hlen)
  intro i hi1 hi2
  have hi1f : i < fencs.length := by simpa using hi1
  have := hall i hi1f hi2
  simpa [List.getElem_map] using this

/-- Direct dataset with one BOOLEAN feature, used as the C1 witness input. -/
def c1wdata : JVal := .dict [("entries", .dict
  [("flag", .dict [("numOfNotNull", .int 3), ("numOfTrue", .int 1)])])]

def c1wenh : JVal := .dict [("entries", .dict
  [("flag", .dict [("numOfNotNull", .int 3), ("numOfTrue", .int 1),
     ("vectorized_statistics", .dict
       [("vectorized", .list [.int 3, .int 1]),
        ("encoder", .dict [("type", .str "int"), ("data", .list [.int 3, .int 1]),
                           ("dataType", .str "BOOLEAN"), ("vectorLength", .int 2)]),
        ("dataType", .str "BOOLEAN")])])])]

def c1wencs : List EncoderOut :=
  [.aggregated "mixed" [.int 3, .int 1] 1 supportedDataTypes]

def c1wsch : List SchemaEntry :=
  [⟨.str "flag", .str "BOOLEAN", 0, 2, ["numOfNotNull", "numOfTrue"]⟩]

theorem c1weval : enhanceDataset c1wdata none = .ok (c1wenh, c1wencs, c1wsch) := rfl

/-- Witness for C1 at a one-feature boolean dataset. -/
theorem C1_aggregation_witness :
    ∃ fencs : List EncoderObj,
      fencs.length = c1wsch.length ∧
      c1wencs = [.aggregated "mixed" ((fencs.map (·.data)).flatten) fencs.length
        supportedDataTypes] ∧
      ((∀ i (h1 : i < fencs.length) (h2 : i < c1wsch.length),
          ((fencs.get ⟨i, h1⟩).data).length = (c1wsch.get ⟨i, h2⟩).length) →
        ((fencs.map (·.data)).flatten).length = sumLen c1wsch) :=
  C1_aggregation c1wdata c1wenh c1wencs c1wsch c1weval (by simp [c1wsch])

/-! ### C10: unrecognized declared types fall back to the categorical vectorizer -/

theorem catVectorize_length {s : JVal} {v : List JVal}
    (h : catVectorize s = .ok v) : v.length = 3 := by
  unfold catVectorize at h
  cases s with
  | dict sd =>
      simp only [pyDictGet, exceptOkBind] at h
      by_cases hz : isZero (pyGetD sd "numOfNotNull" (.int 0)) = true
      · rw [if_pos hz] at h
        simp only [Except.ok.injEq] at h
        subst h; rfl
      · rw [if_neg hz] at h
        cases hlen : pyLen (pyGetD sd "valueSet" (.list [])) with
        | error e => rw [hlen] at h; exact absurd h (by simp [exceptErrorBind])
        | ok n =>
            rw [hlen] at h
            simp only [exceptOkBind] at h
            cases hc : pyGetD sd "cardinalityPerItem" (.list []) with
            | list l =>
                rw [hc] at h; dsimp only at h
                by_cases hl : l.isEmpty = true
                · rw [if_pos hl] at h
                  simp only [exceptOkBind, Except.ok.injEq] at h
                  subst h; rfl
                · rw [if_neg hl] at h
                  cases hm : pyMax l with
                  | error e => rw [hm] at h; exact absurd h (by simp [exceptErrorBind])
                  | ok m =>
                      rw [hm] at h
                      simp only [exceptOkBind, Except.ok.injEq] at h
                      subst h; rfl
            | dict d0 =>
                rw [hc] at h; dsimp only at h
                by_cases hl : d0.isEmpty = true
                · rw [if_pos hl] at h
                  simp only [exceptOkBind, Except.ok.injEq] at h
                  subst h; rfl
                · rw [if_neg hl] at h
                  cases hm : pyMax (d0.map (·.2)) with
                  | error e => rw [hm] at h; exact absurd h (by simp [exceptErrorBind])
                  | ok m =>
                      rw [hm] at h
                      simp only [exceptOkBind, Except.ok.injEq] at h
                      subst h; rfl
            | null =>
                rw [hc] at h; dsimp only at h
                simp only [exceptOkBind, Except.ok.injEq] at h
                subst h; rfl
            | int n2 =>
                rw [hc] at h; dsimp only at h
                simp only [exceptOkBind, Except.ok.injEq] at h
                subst h; rfl
            | float q =>
                rw [hc] at h; dsimp only at h
                simp only [exceptOkBind, Except.ok.injEq] at h
                subst h; rfl
            | str st =>
                rw [hc] at h; dsimp only at h
                simp only [exceptOkBind, Except.ok.injEq] at h
                subst h; rfl
  | null => simp [pyDictGet, exceptErrorBind] at h
  | int n => simp [pyDictGet, exceptErrorBind] at h
  | float q => simp [pyDictGet, exceptErrorBind] at h
  | str st => simp [pyDictGet, exceptErrorBind] at h
  | list l => simp [pyDictGet, exceptErrorBind] at h

theorem getVectorizerStr_unrecognized {dt : String}
    (h1 : pyStrUpper dt ∉ supportedDataTypes) : getVectorizerStr dt = .categorical := by
  simp [supportedDataTypes] at h1
  obtain ⟨hb, hn, hm, ho⟩ := h1
  unfold getVectorizerStr
  rw [if_neg hb, if_neg hn, if_neg hm, if_neg ho]

/-- C10 amended: a direct-format feature whose resolved dataType is neither
"UNKNOWN" nor "DATETIME" is never skipped, even when the type is unrecognized:
it is dispatched to the fallback categorical vectorizer, contributes a schema
entry of length 3 carrying the declared type, and its attached vector is the
3-element categorical vector when vectorization succeeds and the 1-element
fallback [0] on an internal vectorization error. -/
theorem C10_unrecognized_type (featureName : String) (sd : List (String × JVal))
    (dt : String) (metaJ : JVal) (rest : List (String × JVal)) (off : Nat)
    (hdt : getFeatureDataType featureName (.dict sd) metaJ = .ok (.str dt))
    (h1 : pyStrUpper dt ∉ supportedDataTypes)
    (h2 : dt ≠ "UNKNOWN") (h3 : dt ≠ "DATETIME") :
    ∃ enc : EncoderObj,
      (∀ pe encs sch off',
        processDirectLoop none metaJ rest (off + 3) = .ok (pe, encs, sch, off') →
        processDirectLoop none metaJ ((featureName, .dict sd) :: rest) off =
          .ok ((featureName, .dict (dictSet sd "vectorized_statistics"
                 (.dict [("vectorized", .list enc.data),
                         ("encoder", encoderToJVal enc),
                         ("dataType", .str dt)]))) :: pe,
               enc :: encs,
               ⟨.str featureName, .str dt, off, 3,
                 ["numOfNotNull", "numUniqueValues", "topValueCount"]⟩ :: sch,
               off')) ∧
      (∀ v, catVectorize (.dict sd) = .ok v → enc.data = v ∧ v.length = 3) ∧
      (∀ msg, catVectorize (.dict sd) = .error msg → enc.data = [.int 0]) := by
  have hcat : getVectorizerStr dt = .categorical := getVectorizerStr_unrecognized h1
  have hvfs : vectorizeFeatureStatisticsJ (.str dt) (.dict sd) =
      catVectorize (.dict sd) := by
    unfold vectorizeFeatureStatisticsJ getVectorizerJ pyUpper
    rw [exceptOkBind]
    dsimp only
    rw [exceptOkBind, hcat]
    rfl
  have hcef : ∀ enc, createEncoderForFeature (.str featureName) (.str dt) (.dict sd) =
      .ok enc →
      (∀ pe encs sch off',
        processDirectLoop none metaJ rest (off + 3) = .ok (pe, encs, sch, off') →
        processDirectLoop none metaJ ((featureName, .dict sd) :: rest) off =
          .ok ((featureName, .dict (dictSet sd "vectorized_statistics"
                 (.dict [("vectorized", .list enc.data),
                         ("encoder", encoderToJVal enc),
                         ("dataType", .str dt)]))) :: pe,
               enc :: encs,
               ⟨.str featureName, .str dt, off, 3,
                 ["numOfNotNull", "numUniqueValues", "topValueCount"]⟩ :: sch,
               off')) := by
    intro enc henc pe encs sch off' hrest
    simp only [processDirectLoop]
    rw [if_neg (by simp [qActive])]
    rw [hdt]; dsimp only
    rw [if_neg (by simp [jEqStr, h2]), if_neg (by simp [jEqStr, h3])]
    rw [henc]; dsimp only
    rw [show getVectorizerJ (.str dt) = .ok VKind.categorical by
      unfold getVectorizerJ pyUpper; rw [exceptOkBind]; dsimp only; rw [hcat]]
    dsimp only [VKind.vectorLength, VKind.vectorDescription]
    rw [hrest]
  cases hv : catVectorize (.dict sd) with
  | ok v =>
      have henc : createEncoderForFeature (.str featureName) (.str dt) (.dict sd) =
          .ok (encodeFeatureVectorStr dt v) := by
        unfold createEncoderForFeature
        rw [hvfs, hv, exceptOkBind]
        rfl
      refine ⟨encodeFeatureVectorStr dt v, hcef _ henc, ?_, ?_⟩
      · intro v2 hv2
        simp only [Except.ok.injEq] at hv2
        subst hv2
        exact ⟨rfl, catVectorize_length hv⟩
      · intro msg hmsg
        exact absurd hmsg (by simp)
  | error msg =>
      have henc : createEncoderForFeature (.str featureName) (.str dt) (.dict sd) =
          .ok (encodeFeatureVectorStr dt [.int 0]) := by
        unfold createEncoderForFeature
        rw [hvfs, hv]
        rfl
      refine ⟨encodeFeatureVectorStr dt [.int 0], hcef _ henc, ?_, ?_⟩
      · intro v2 hv2
        exact absurd hv2 (by simp)
      · intro msg2 _
        rfl

/-- Witness for C10: declared type "TEXT", valid categorical statistics. -/
theorem C10_unrecognized_type_witness :
    ∃ enc : EncoderObj,
      (∀ pe encs sch off',
        processDirectLoop none (.list [.dict [("name", .str "t"), ("dataType", .str "TEXT")]])
            [] (0 + 3) = .ok (pe, encs, sch, off') →
        processDirectLoop none (.list [.dict [("name", .str "t"), ("dataType", .str "TEXT")]])
            [("t", .dict [("numOfNotNull", .int 2), ("valueSet", .list [.str "a"]),
              ("cardinalityPerItem", .list [.int 2])])] 0 =
          .ok (("t", .dict (dictSet [("numOfNotNull", .int 2), ("valueSet", .list [.str "a"]),
                  ("cardinalityPerItem", .list [.int 2])] "vectorized_statistics"
                 (.dict [("vectorized", .list enc.data),
                         ("encoder", encoderToJVal enc),
                         ("dataType", .str "TEXT")]))) :: pe,
               enc :: encs,
               ⟨.str "t", .str "TEXT", 0, 3,
                 ["numOfNotNull", "numUniqueValues", "topValueCount"]⟩ :: sch,
               off')) ∧
      (∀ v, catVectorize (.dict [("numOfNotNull", .int 2), ("valueSet", .list [.str "a"]),
          ("cardinalityPerItem", .list [.int 2])]) = .ok v → enc.data = v ∧ v.length = 3) ∧
      (∀ msg, catVectorize (.dict [("numOfNotNull", .int 2), ("valueSet", .list [.str "a"]),
          ("cardinalityPerItem", .list [.int 2])]) = .error msg → enc.data = [.int 0]) :=
  C10_unrecognized_type "t"
    [("numOfNotNull", .int 2), ("valueSet", .list [.str "a"]),
     ("cardinalityPerItem", .list [.int 2])]
    "TEXT" (.list [.dict [("name", .str "t"), ("dataType", .str "TEXT")]]) [] 0
    (by simp [getFeatureDataType, truthy, metaFind, metaNameMatches, dlookup, pyGetD,
      exceptOkBind])
    (by decide) (by decide) (by decide)

/-- Direct dataset whose single feature is declared "TEXT" but has a valueSet
that is a number, so the categorical vectorizer raises and the fallback fires. -/
def c10bad : JVal := .dict
  [("entries", .dict [("f", .dict [("numOfNotNull", .int 5), ("valueSet", .int 7)])]),
   ("features", .list [.dict [("name", .str "f"), ("dataType", .str "TEXT")]])]

/-- C10 counterexample: the "TEXT" feature is not skipped and its schema entry
has length 3, but its attached vector is the 1-element fallback [0], not a
3-element vector. -/
theorem C10_counterexample :
    enhanceDataset c10bad none = .ok (.dict
      [("entries", .dict [("f", .dict
        [("numOfNotNull", .int 5), ("valueSet", .int 7),
         ("vectorized_statistics", .dict
           [("vectorized", .list [.int 0]),
            ("encoder", .dict [("type", .str "int"), ("data", .list [.int 0]),
                               ("dataType", .str "TEXT"), ("vectorLength", .int 1)]),
            ("dataType", .str "TEXT")])])]),
       ("features", .list [.dict [("name", .str "f"), ("dataType", .str "TEXT")]])],
      [.aggregated "mixed" [.int 0] 1 supportedDataTypes],
      [⟨.str "f", .str "TEXT", 0, 3,
        ["numOfNotNull", "numUniqueValues", "topValueCount"]⟩]) ∧
    [JVal.int 0].length ≠ 3 :=
  ⟨rfl, by decide⟩

/-! ### C5: query isolation -/

/-- C5 counterexample: a query that matches no feature of a direct dataset
yields zero schema entries, not exactly one; and in legacy format two features
carrying the queried name both get schema entries. -/
theorem C5_counterexample :
    ((enhanceDataset (.dict [("entries", .dict
        [("a", .dict [("numOfNotNull", .int 4), ("numOfTrue", .int 2)])])])
        (some "b")).map (fun r => r.2.2.length) = .ok 0 ∧ (0 : Nat) ≠ 1) ∧
    ((enhanceDataset (.dict [("entries", .list [.dict [("featureSet", .dict
        [("features", .list
          [.dict [("name", .str "q"), ("dataType", .str "BOOLEAN"),
                  ("statistics", .dict [("numOfNotNull", .int 1), ("numOfTrue", .int 1)])],
           .dict [("name", .str "q"), ("dataType", .str "BOOLEAN"),
                  ("statistics", .dict [("numOfNotNull", .int 2), ("numOfTrue", .int 1)])]])])]])])
        (some "q")).map (fun r => r.2.2.length) = .ok 2 ∧ (2 : Nat) ≠ 1) :=
  ⟨⟨rfl, by decide⟩, ⟨rfl, by decide⟩⟩

theorem processDirectLoop_noMatch (s : String) (hs : s ≠ "") (meta : JVal) :
    ∀ (entries : List (String × JVal)) (off : Nat),
      (∀ p ∈ entries, p.1 ≠ s) →
      processDirectLoop (some s) meta entries off = .ok (entries, [], [], off) := by
  intro entries
  induction entries with
  | nil => intro off _; rfl
  | cons p rest ih =>
      intro off hnone
      obtain ⟨k, v⟩ := p
      have hk : k ≠ s := hnone (k, v) (by simp)
      simp only [processDirectLoop]
      rw [if_pos (by simp [qActive, hs, hk])]
      rw [ih off (fun p hp => hnone p (by simp [hp]))]

theorem head_key_not_in_rest {k : String} {v : JVal} {rest : List (String × JVal)}
    (hnd : (((k, v) :: rest).map (·.1)).Nodup) : ∀ p ∈ rest, p.1 ≠ k := by
  intro p hp hps
  simp only [List.map_cons] at hnd
  exact (List.nodup_cons.mp hnd).1 (by rw [← hps]; exact List.mem_map_of_mem _ hp)

theorem processDirectLoop_query (s : String) (hs : s ≠ "") (meta : JVal) :
    ∀ (entries : List (String × JVal)) (off : Nat) pe encs sch off',
      processDirectLoop (some s) meta entries off = .ok (pe, encs, sch, off') →
      (∀ e ∈ sch, e.featureName = .str s) ∧
      (∀ k, k ≠ s → dlookup pe k = dlookup entries k) ∧
      ((entries.map (·.1)).Nodup → sch.length ≤ 1) := by
  intro entries
  induction entries with
  | nil =>
      intro off pe encs sch off' h
      simp only [processDirectLoop, Except.ok.injEq, Prod.mk.injEq] at h
      obtain ⟨h1, h2, h3, h4⟩ := h
      subst h1; subst h3
      exact ⟨by simp, fun k _ => rfl, fun _ => by simp⟩
  | cons p rest ih =>
      intro off pe encs sch off' h
      obtain ⟨featureName, featureStats⟩ := p
      simp only [processDirectLoop] at h
      by_cases hq : (qActive (some s) && decide (featureName ≠ (some s).getD "")) = true
      · -- featureName ≠ s: passed through untouched
        have hk : featureName ≠ s := by
          simp only [qActive, Option.getD_some, Bool.and_eq_true, decide_eq_true_eq] at hq
          exact hq.2
        rw [if_pos hq] at h
        cases hrec : processDirectLoop (some s) meta rest off with
        | error e => rw [hrec] at h; exact absurd h (by simp)
        | ok r =>
            obtain ⟨pe2, encs2, sch2, off2⟩ := r
            rw [hrec] at h
            simp only [Except.ok.injEq, Prod.mk.injEq] at h
            obtain ⟨h1, h2, h3, h4⟩ := h
            subst h1; subst h2; subst h3; subst h4
            obtain ⟨ha, hb, hc⟩ := ih _ _ _ _ _ hrec
            refine ⟨ha, fun k hk2 => ?_, fun hnd => hc (by simpa using hnd.of_cons)⟩
            simp only [dlookup]
            by_cases hkf : featureName = k
            · rw [if_pos hkf, if_pos hkf]
            · rw [if_neg hkf, if_neg hkf]
              exact hb k hk2
      · -- featureName = s
        have hk : featureName = s := by
          by_contra hne
          apply hq
          simp [qActive, hs, hne]
        subst featureName
        rw [if_neg hq] at h
        cases hdt : getFeatureDataType s featureStats meta with
        | error e => rw [hdt] at h; exact absurd h (by simp)
        | ok dataType =>
            rw [hdt] at h; dsimp only at h
            have hskip : ∀ pe2 encs2 sch2 off2,
                processDirectLoop (some s) meta rest off = .ok (pe2, encs2, sch2, off2) →
                .ok ((s, featureStats) :: pe2, encs2, sch2, off2) =
                  (.ok (pe, encs, sch, off') :
                    Except String (List (String × JVal) × List EncoderObj ×
                      List SchemaEntry × Nat)) →
                ((∀ e ∈ sch, e.featureName = .str s) ∧
                 (∀ k, k ≠ s → dlookup pe k = dlookup ((s, featureStats) :: rest) k) ∧
                 ((((s, featureStats) :: rest).map (·.1)).Nodup → sch.length ≤ 1)) := by
              intro pe2 encs2 sch2 off2 hrec heq
              simp only [Except.ok.injEq, Prod.mk.injEq] at heq
              obtain ⟨h1, h2, h3, h4⟩ := heq
              subst h1; subst h2; subst h3; subst h4
              obtain ⟨ha, hb, _⟩ := ih _ _ _ _ _ hrec
              refine ⟨ha, fun k hk2 => ?_, fun hnd => ?_⟩
              · simp only [dlookup]
                by_cases hkf : s = k
                · rw [if_pos hkf, if_pos hkf]
                · rw [if_neg hkf, if_neg hkf]
                  exact hb k hk2
              · have hnos : ∀ p ∈ rest, p.1 ≠ s := head_key_not_in_rest hnd
                have hnm := processDirectLoop_noMatch s hs meta rest off hnos
                rw [hnm] at hrec
                simp only [Except.ok.injEq, Prod.mk.injEq] at hrec
                obtain ⟨_, _, hsch, _⟩ := hrec
                rw [← hsch]
                simp
            by_cases hu : jEqStr dataType "UNKNOWN" = true
            · rw [if_pos hu] at h
              cases hrec : processDirectLoop (some s) meta rest off with
              | error e => rw [hrec] at h; exact absurd h (by simp)
              | ok r =>
                  obtain ⟨pe2, encs2, sch2, off2⟩ := r
                  rw [hrec] at h
                  exact hskip _ _ _ _ hrec h
            · rw [if_neg hu] at h
              by_cases hd : jEqStr dataType "DATETIME" = true
              · rw [if_pos hd] at h
                cases hrec : processDirectLoop (some s) meta rest off with
                | error e => rw [hrec] at h; exact absurd h (by simp)
                | ok r =>
                    obtain ⟨pe2, encs2, sch2, off2⟩ := r
                    rw [hrec] at h
                    exact hskip _ _ _ _ hrec h
              · rw [if_neg hd] at h
                cases henc : createEncoderForFeature (.str s) dataType
                    featureStats with
                | error e => rw [henc] at h; exact absurd h (by simp)
                | ok enc =>
                    rw [henc] at h; dsimp only at h
                    cases featureStats with
                    | dict fs =>
                        cases hvk : getVectorizerJ dataType with
                        | error e => rw [hvk] at h; exact absurd h (by simp)
                        | ok vk =>
                            rw [hvk] at h; dsimp only at h
                            cases hrec : processDirectLoop (some s) meta rest
                                (off + vk.vectorLength) with
                            | error e => rw [hrec] at h; exact absurd h (by simp)
                            | ok r =>
                                obtain ⟨pe2, encs2, sch2, off2⟩ := r
                                rw [hrec] at h
                                simp only [Except.ok.injEq, Prod.mk.injEq] at h
                                obtain ⟨h1, h2, h3, h4⟩ := h
                                subst h1; subst h2; subst h3; subst h4
                                obtain ⟨ha, hb, _⟩ := ih _ _ _ _ _ hrec
                                refine ⟨?_, fun k hk2 => ?_, fun hnd => ?_⟩
                                · intro e he
                                  rcases List.mem_cons.mp he with he | he
                                  · subst he; rfl
                                  · exact ha e he
                                · simp only [dlookup]
                                  by_cases hkf : s = k
                                  · exact absurd hkf.symm hk2
                                  · rw [if_neg hkf, if_neg hkf]
                                    exact hb k hk2
                                · have hnos : ∀ p ∈ rest, p.1 ≠ s :=
                                    head_key_not_in_rest hnd
                                  have hnm := processDirectLoop_noMatch s hs meta rest
                                    (off + vk.vectorLength) hnos
                                  rw [hnm] at hrec
                                  simp only [Except.ok.injEq, Prod.mk.injEq] at hrec
                                  obtain ⟨_, _, hsch, _⟩ := hrec
                                  rw [← hsch]
                                  simp
                    | null => exact absurd h (by simp)
                    | int n => exact absurd h (by simp)
                    | float q0 => exact absurd h (by simp)
                    | str st => exact absurd h (by simp)
                    | list l => exact absurd h (by simp)

/-- C5 amended: supplying a truthy query to a direct-format dataset processes
only features named exactly by the query: every schema entry names the query,
with unique feature keys there is at most one entry, every other feature passes
through unchanged, and the encoders list is the per-feature list, one encoder
per schema entry, with no aggregation. -/
theorem C5_query_isolation (d : List (String × JVal)) (entries : List (String × JVal))
    (s : String) (hs : s ≠ "")
    (hE : dlookup d "entries" = some (.dict entries))
    (d' : JVal) (encs : List EncoderOut) (sch : List SchemaEntry)
    (h : enhanceDataset (.dict d) (some s) = .ok (d', encs, sch)) :
    (∀ e ∈ sch, e.featureName = .str s) ∧
    ((entries.map (·.1)).Nodup → sch.length ≤ 1) ∧
    (∃ fencs : List EncoderObj, encs = fencs.map .single ∧ fencs.length = sch.length) ∧
    (∃ pe : List (String × JVal),
      d' = .dict (dictSet d "entries" (.dict pe)) ∧
      ∀ k, k ≠ s → dlookup pe k = dlookup entries k) := by
  have hdet : detectDataFormat (.dict d) = .ok "direct" := by
    unfold detectDataFormat pyInStr
    dsimp only
    have hany : (d.any fun p => decide (p.1 = "entries")) = true := by
      rw [any_key_eq_dlookup, hE]; rfl
    rw [hany]; dsimp only; rw [hE]
  unfold enhanceDataset at h
  rw [hdet] at h; dsimp only at h
  rw [if_pos rfl] at h
  unfold processDirectFormat at h
  rw [hE] at h
  simp only [Option.getD_some] at h
  cases hl : processDirectLoop (some s) (pyGetD d "features" (.list [])) entries 0 with
  | error e => rw [hl] at h; exact absurd h (by simp)
  | ok r =>
      obtain ⟨pe, fencs, sch2, off2⟩ := r
      rw [hl] at h; dsimp only at h
      rw [if_neg (by simp)] at h
      rw [if_pos (by simp [qActive, hs])] at h
      simp only [Except.ok.injEq, Prod.mk.injEq] at h
      obtain ⟨h1, h2, h3⟩ := h
      subst h1; subst h2; subst h3
      obtain ⟨ha, hb, hc⟩ :=
        processDirectLoop_query s hs (pyGetD d "features" (.list [])) entries 0
          pe fencs sch2 off2 hl
      obtain ⟨hlen, _, _⟩ :=
        processDirectLoop_spec (some s) (pyGetD d "features" (.list [])) entries 0
          pe fencs sch2 off2 hl
      exact ⟨ha, hc, ⟨fencs, rfl, hlen⟩, ⟨pe, rfl, hb⟩⟩

/-- Direct dataset with two boolean features, used as the C5 witness input. -/
def c5wd : List (String × JVal) :=
  [("entries", .dict
    [("a", .dict [("numOfNotNull", .int 4), ("numOfTrue", .int 2)]),
     ("b", .dict [("numOfNotNull", .int 6), ("numOfTrue", .int 3)])])]

def c5wentries : List (String × JVal) :=
  [("a", .dict [("numOfNotNull", .int 4), ("numOfTrue", .int 2)]),
   ("b", .dict [("numOfNotNull", .int 6), ("numOfTrue", .int 3)])]

def c5wenh : JVal := .dict [("entries", .dict
  [("a", .dict [("numOfNotNull", .int 4), ("numOfTrue", .int 2),
     ("vectorized_statistics", .dict
       [("vectorized", .list [.int 4, .int 2]),
        ("encoder", .dict [("type", .str "int"), ("data", .list [.int 4, .int 2]),
                           ("dataType", .str "BOOLEAN"), ("vectorLength", .int 2)]),
        ("dataType", .str "BOOLEAN")])]),
   ("b", .dict [("numOfNotNull", .int 6), ("numOfTrue", .int 3)])])]

def c5wencs : List EncoderOut :=
  [.single ⟨"int", [.int 4, .int 2], "BOOLEAN", 2⟩]

def c5wsch : List SchemaEntry :=
  [⟨.str "a", .str "BOOLEAN", 0, 2, ["numOfNotNull", "numOfTrue"]⟩]

theorem c5weval : enhanceDataset (.dict c5wd) (some "a") = .ok (c5wenh, c5wencs, c5wsch) :=
  rfl

/-- Witness for C5: querying "a" on a two-feature dataset. -/
theorem C5_query_isolation_witness :
    (∀ e ∈ c5wsch, e.featureName = .str "a") ∧
    ((c5wentries.map (·.1)).Nodup → c5wsch.length ≤ 1) ∧
    (∃ fencs : List EncoderObj, c5wencs = fencs.map .single ∧
      fencs.length = c5wsch.length) ∧
    (∃ pe : List (String × JVal),
      c5wenh = .dict (dictSet c5wd "entries" (.dict pe)) ∧
      ∀ k, k ≠ "a" → dlookup pe k = dlookup c5wentries k) :=
  C5_query_isolation c5wd c5wentries "a" (by decide) rfl c5wenh c5wencs c5wsch c5weval

/-! ### C3: legacy processing vs the direct path -/

def JVal.isDict : JVal → Bool
  | .dict _ => true
  | _ => false

/-- Legacy image of a (name, declaredType, statistics) feature. -/
def legacyFeatJ (f : String × String × JVal) : JVal :=
  .dict [("name", .str f.1), ("dataType", .str f.2.1), ("statistics", f.2.2)]

/-- A one-entry legacy dataset holding the given features. -/
def legacyOf (fs : List (String × String × JVal)) : List (String × JVal) :=
  [("entries", .list [.dict [("featureSet", .dict
    [("features", .list (fs.map legacyFeatJ))])]])]

/-- The features metadata of the corresponding direct dataset. -/
def directMetaJ (fs : List (String × String × JVal)) : JVal :=
  .list (fs.map fun f => .dict [("name", .str f.1), ("dataType", .str f.2.1)])

/-- The corresponding direct dataset: same ordered features, statistics keyed
by name, declared types in the features metadata. -/
def directOf (fs : List (String × String × JVal)) : List (String × JVal) :=
  [("entries", .dict (fs.map fun f => (f.1, f.2.2))), ("features", directMetaJ fs)]

theorem metaFind_found : ∀ (fs : List (String × String × JVal)) (nm t : String)
    (v : JVal), (nm, t, v) ∈ fs → (fs.map (·.1)).Nodup →
    metaFind nm (fs.map fun f => .dict [("name", .str f.1), ("dataType", .str f.2.1)]) =
      .ok (some (.str t)) := by
  intro fs
  induction fs with
  | nil => intro nm t v hmem _; simp at hmem
  | cons f0 rest ih =>
      intro nm t v hmem hnd
      obtain ⟨n0, t0, v0⟩ := f0
      simp only [List.map_cons, metaFind]
      rcases List.mem_cons.mp hmem with hm | hm
      · simp only [Prod.mk.injEq] at hm
        obtain ⟨h1, h2, _⟩ := hm
        subst h1; subst h2
        rw [if_pos (by simp [metaNameMatches, dlookup])]
        rfl
      · simp only [List.map_cons] at hnd
        have hnm : nm ∈ rest.map (·.1) := by
          have h0 : (nm, t, v).1 ∈ rest.map (·.1) := List.mem_map_of_mem _ hm
          simpa using h0
        have hne : n0 ≠ nm := by
          intro he
          have h0 := (List.nodup_cons.mp hnd).1
          rw [he] at h0
          exact h0 hnm
        rw [if_neg (by simp [metaNameMatches, dlookup, hne])]
        exact ih nm t v hm (List.nodup_cons.mp hnd).2

theorem getFeatureDataType_meta (fs : List (String × String × JVal))
    (nm t : String) (v : JVal) (hmem : (nm, t, v) ∈ fs)
    (hnd : (fs.map (·.1)).Nodup) :
    getFeatureDataType nm v (directMetaJ fs) = .ok (.str t) := by
  cases fs with
  | nil => simp at hmem
  | cons f0 rest =>
      unfold getFeatureDataType directMetaJ
      rw [if_pos (by simp [truthy])]
      dsimp only
      rw [metaFind_found (f0 :: rest) nm t v hmem hnd, exceptOkBind]

theorem createEncoderForFeature_str_ok (n : JVal) (t : String) (stats : JVal) :
    ∃ enc, createEncoderForFeature n (.str t) stats = .ok enc := by
  unfold createEncoderForFeature
  cases h : (do
      let vectorData ← vectorizeFeatureStatisticsJ (.str t) stats
      encodeFeatureVectorJ (.str t) vectorData : Except String EncoderObj) with
  | ok e => exact ⟨e, rfl⟩
  | error msg => exact ⟨encodeFeatureVectorStr t [.int 0], rfl⟩

theorem loop_equiv (metaJ : JVal) :
    ∀ (fs : List (String × String × JVal)) (off : Nat),
      (∀ f ∈ fs, getFeatureDataType f.1 f.2.2 metaJ = .ok (.str f.2.1)) →
      (∀ f ∈ fs, f.2.1 ∈ (["BOOLEAN", "NUMERIC", "NOMINAL", "ORDINAL"] : List String)) →
      (∀ f ∈ fs, (f.2.2).isDict = true) →
      ∃ feats' pe encs sch off2,
        processLegacyFeatures none (fs.map legacyFeatJ) off =
          .ok (feats', encs, sch, off2) ∧
        processDirectLoop none metaJ (fs.map fun f => (f.1, f.2.2)) off =
          .ok (pe, encs, sch, off2) := by
  intro fs
  induction fs with
  | nil => intro off _ _ _; exact ⟨[], [], [], [], off, rfl, rfl⟩
  | cons f0 rest ih =>
      intro off hdt ht hd
      obtain ⟨nm, t, stats⟩ := f0
      have hd0 := hd (nm, t, stats) (by simp)
      have htl1 : ∀ f ∈ rest, getFeatureDataType f.1 f.2.2 metaJ = .ok (.str f.2.1) :=
        fun f hf => hdt f (List.mem_cons_of_mem _ hf)
      have htl2 : ∀ f ∈ rest,
          f.2.1 ∈ (["BOOLEAN", "NUMERIC", "NOMINAL", "ORDINAL"] : List String) :=
        fun f hf => ht f (List.mem_cons_of_mem _ hf)
      have htl3 : ∀ f ∈ rest, (f.2.2).isDict = true :=
        fun f hf => hd f (List.mem_cons_of_mem _ hf)
      cases stats with
      | dict sd =>
          have hdt0 := hdt (nm, t, .dict sd) (by simp)
          have ht0 := ht (nm, t, .dict sd) (by simp)
          simp only [List.mem_cons, List.not_mem_nil, or_false] at ht0
          rcases ht0 with ht0 | ht0 | ht0 | ht0
          · -- t = "BOOLEAN"
            subst ht0
            obtain ⟨feats', pe, encs, sch, off2, hL, hD⟩ := ih (off + 2) htl1 htl2 htl3
            have hLs : processLegacyFeatures none
                (((nm, "BOOLEAN", JVal.dict sd) :: rest).map legacyFeatJ) off =
                .ok (JVal.dict [("name", JVal.str nm), ("dataType", JVal.str "BOOLEAN"),
                      ("statistics", JVal.dict sd),
                      ("vectorized_statistics", JVal.dict
                        [("vectorized", .list [pyGetD sd "numOfNotNull" (.int 0),
                           pyGetD sd "numOfTrue" (.int 0)]),
                         ("encoder", encoderToJVal (encodeFeatureVectorStr "BOOLEAN"
                           [pyGetD sd "numOfNotNull" (.int 0),
                            pyGetD sd "numOfTrue" (.int 0)]))])] :: feats',
                     encodeFeatureVectorStr "BOOLEAN"
                       [pyGetD sd "numOfNotNull" (.int 0),
                        pyGetD sd "numOfTrue" (.int 0)] :: encs,
                     ⟨JVal.str nm, JVal.str "BOOLEAN", off, 2,
                       ["numOfNotNull", "numOfTrue"]⟩ :: sch,
                     off2) := by
              simp only [List.map_cons, legacyFeatJ, processLegacyFeatures]
              rw [if_neg (by simp [qActive])]
              rw [show pyUpper (pyGetD [("name", JVal.str nm),
                  ("dataType", JVal.str "BOOLEAN"), ("statistics", JVal.dict sd)]
                  "dataType" (.str "")) = Except.ok "BOOLEAN" from rfl]
              dsimp only
              rw [if_pos rfl]
              rw [show createEncoderForBooleanFeature [("name", JVal.str nm),
                  ("dataType", JVal.str "BOOLEAN"), ("statistics", JVal.dict sd)] =
                Except.ok ([("name", JVal.str nm), ("dataType", JVal.str "BOOLEAN"),
                  ("statistics", JVal.dict sd),
                  ("vectorized_statistics", JVal.dict
                    [("vectorized", .list [pyGetD sd "numOfNotNull" (.int 0),
                       pyGetD sd "numOfTrue" (.int 0)]),
                     ("encoder", encoderToJVal (encodeFeatureVectorStr "BOOLEAN"
                       [pyGetD sd "numOfNotNull" (.int 0),
                        pyGetD sd "numOfTrue" (.int 0)]))])],
                  encodeFeatureVectorStr "BOOLEAN"
                    [pyGetD sd "numOfNotNull" (.int 0), pyGetD sd "numOfTrue" (.int 0)])
                from rfl]
              dsimp only
              rw [hL]
              rfl
            have hDs : processDirectLoop none metaJ
                (((nm, "BOOLEAN", JVal.dict sd) :: rest).map fun f => (f.1, f.2.2)) off =
                .ok ((nm, JVal.dict (dictSet sd "vectorized_statistics"
                       (JVal.dict [("vectorized", .list (encodeFeatureVectorStr "BOOLEAN"
                           [pyGetD sd "numOfNotNull" (.int 0),
                            pyGetD sd "numOfTrue" (.int 0)]).data),
                         ("encoder", encoderToJVal (encodeFeatureVectorStr "BOOLEAN"
                           [pyGetD sd "numOfNotNull" (.int 0),
                            pyGetD sd "numOfTrue" (.int 0)])),
                         ("dataType", JVal.str "BOOLEAN")]))) :: pe,
                     encodeFeatureVectorStr "BOOLEAN"
                       [pyGetD sd "numOfNotNull" (.int 0),
                        pyGetD sd "numOfTrue" (.int 0)] :: encs,
                     ⟨JVal.str nm, JVal.str "BOOLEAN", off, 2,
                       ["numOfNotNull", "numOfTrue"]⟩ :: sch,
                     off2) := by
              simp only [List.map_cons, processDirectLoop]
              rw [if_neg (by simp [qActive])]
              rw [hdt0]
              dsimp only
              rw [if_neg (by simp [jEqStr]), if_neg (by simp [jEqStr])]
              rw [show createEncoderForFeature (.str nm) (.str "BOOLEAN") (.dict sd) =
                Except.ok (encodeFeatureVectorStr "BOOLEAN"
                  [pyGetD sd "numOfNotNull" (.int 0), pyGetD sd "numOfTrue" (.int 0)])
                from rfl]
              dsimp only
              rw [show getVectorizerJ (.str "BOOLEAN") = Except.ok VKind.boolean from rfl]
              dsimp only [VKind.vectorLength, VKind.vectorDescription]
              rw [hD]
            exact ⟨_, _, _, _, off2, hLs, hDs⟩
          · -- t = "NUMERIC"
            subst ht0
            obtain ⟨enc, hce⟩ := createEncoderForFeature_str_ok (.str nm) "NUMERIC" (.dict sd)
            obtain ⟨feats', pe, encs, sch, off2, hL, hD⟩ := ih (off + 7) htl1 htl2 htl3
            have hLs : processLegacyFeatures none
                (((nm, "NUMERIC", JVal.dict sd) :: rest).map legacyFeatJ) off =
                .ok (JVal.dict [("name", JVal.str nm), ("dataType", JVal.str "NUMERIC"),
                      ("statistics", JVal.dict sd),
                      ("vectorized_statistics", JVal.dict
                        [("vectorized", .list enc.data),
                         ("encoder", encoderToJVal enc),
                         ("dataType", JVal.str "NUMERIC")])] :: feats',
                     enc :: encs,
                     ⟨JVal.str nm, JVal.str "NUMERIC", off, 7, ["numOfNotNull", "min", "max", "avg", "q1", "q2", "q3"]⟩ :: sch,
                     off2) := by
              simp only [List.map_cons, legacyFeatJ, processLegacyFeatures]
              rw [if_neg (by simp [qActive])]
              rw [show pyUpper (pyGetD [("name", JVal.str nm), ("dataType", JVal.str "NUMERIC"),
                  ("statistics", JVal.dict sd)] "dataType" (.str "")) = Except.ok "NUMERIC"
                from rfl]
              dsimp only
              rw [if_neg (by decide), if_pos (by decide)]
              rw [show pyGetD [("name", JVal.str nm), ("dataType", JVal.str "NUMERIC"),
                  ("statistics", JVal.dict sd)] "statistics" (.dict []) = JVal.dict sd
                from rfl]
              rw [show pyGetD [("name", JVal.str nm), ("dataType", JVal.str "NUMERIC"),
                  ("statistics", JVal.dict sd)] "name" JVal.null = JVal.str nm from rfl]
              rw [hce]
              dsimp only
              rw [show getVectorizerStr "NUMERIC" = VKind.numeric from rfl]
              dsimp only [VKind.vectorLength, VKind.vectorDescription]
              rw [hL]
              rfl
            have hDs : processDirectLoop none metaJ
                (((nm, "NUMERIC", JVal.dict sd) :: rest).map fun f => (f.1, f.2.2)) off =
                .ok ((nm, JVal.dict (dictSet sd "vectorized_statistics"
                       (JVal.dict [("vectorized", .list enc.data),
                                   ("encoder", encoderToJVal enc),
                                   ("dataType", JVal.str "NUMERIC")]))) :: pe,
                     enc :: encs,
                     ⟨JVal.str nm, JVal.str "NUMERIC", off, 7, ["numOfNotNull", "min", "max", "avg", "q1", "q2", "q3"]⟩ :: sch,
                     off2) := by
              simp only [List.map_cons, processDirectLoop]
              rw [if_neg (by simp [qActive])]
              rw [hdt0]
              dsimp only
              rw [if_neg (by simp [jEqStr]), if_neg (by simp [jEqStr])]
              rw [hce]
              dsimp only
              rw [show getVectorizerJ (.str "NUMERIC") = Except.ok VKind.numeric from rfl]
              dsimp only [VKind.vectorLength, VKind.vectorDescription]
              rw [hD]
            exact ⟨_, _, _, _, off2, hLs, hDs⟩
          · -- t = "NOMINAL"
            subst ht0
            obtain ⟨enc, hce⟩ := createEncoderForFeature_str_ok (.str nm) "NOMINAL" (.dict sd)
            obtain ⟨feats', pe, encs, sch, off2, hL, hD⟩ := ih (off + 3) htl1 htl2 htl3
            have hLs : processLegacyFeatures none
                (((nm, "NOMINAL", JVal.dict sd) :: rest).map legacyFeatJ) off =
                .ok (JVal.dict [("name", JVal.str nm), ("dataType", JVal.str "NOMINAL"),
                      ("statistics", JVal.dict sd),
                      ("vectorized_statistics", JVal.dict
                        [("vectorized", .list enc.data),
                         ("encoder", encoderToJVal enc),
                         ("dataType", JVal.str "NOMINAL")])] :: feats',
                     enc :: encs,
                     ⟨JVal.str nm, JVal.str "NOMINAL", off, 3, ["numOfNotNull", "numUniqueValues", "topValueCount"]⟩ :: sch,
                     off2) := by
              simp only [List.map_cons, legacyFeatJ, processLegacyFeatures]
              rw [if_neg (by simp [qActive])]
              rw [show pyUpper (pyGetD [("name", JVal.str nm), ("dataType", JVal.str "NOMINAL"),
                  ("statistics", JVal.dict sd)] "dataType" (.str "")) = Except.ok "NOMINAL"
                from rfl]
              dsimp only
              rw [if_neg (by decide), if_pos (by decide)]
              rw [show pyGetD [("name", JVal.str nm), ("dataType", JVal.str "NOMINAL"),
                  ("statistics", JVal.dict sd)] "statistics" (.dict []) = JVal.dict sd
                from rfl]
              rw [show pyGetD [("name", JVal.str nm), ("dataType", JVal.str "NOMINAL"),
                  ("statistics", JVal.dict sd)] "name" JVal.null = JVal.str nm from rfl]
              rw [hce]
              dsimp only
              rw [show getVectorizerStr "NOMINAL" = VKind.categorical from rfl]
              dsimp only [VKind.vectorLength, VKind.vectorDescription]
              rw [hL]
              rfl
            have hDs : processDirectLoop none metaJ
                (((nm, "NOMINAL", JVal.dict sd) :: rest).map fun f => (f.1, f.2.2)) off =
                .ok ((nm, JVal.dict (dictSet sd "vectorized_statistics"
                       (JVal.dict [("vectorized", .list enc.data),
                                   ("encoder", encoderToJVal enc),
                                   ("dataType", JVal.str "NOMINAL")]))) :: pe,
                     enc :: encs,
                     ⟨JVal.str nm, JVal.str "NOMINAL", off, 3, ["numOfNotNull", "numUniqueValues", "topValueCount"]⟩ :: sch,
                     off2) := by
              simp only [List.map_cons, processDirectLoop]
              rw [if_neg (by simp [qActive])]
              rw [hdt0]
              dsimp only
              rw [if_neg (by simp [jEqStr]), if_neg (by simp [jEqStr])]
              rw [hce]
              dsimp only
              rw [show getVectorizerJ (.str "NOMINAL") = Except.ok VKind.categorical from rfl]
              dsimp only [VKind.vectorLength, VKind.vectorDescription]
              rw [hD]
            exact ⟨_, _, _, _, off2, hLs, hDs⟩
          · -- t = "ORDINAL"
            subst ht0
            obtain ⟨enc, hce⟩ := createEncoderForFeature_str_ok (.str nm) "ORDINAL" (.dict sd)
            obtain ⟨feats', pe, encs, sch, off2, hL, hD⟩ := ih (off + 3) htl1 htl2 htl3
            have hLs : processLegacyFeatures none
                (((nm, "ORDINAL", JVal.dict sd) :: rest).map legacyFeatJ) off =
                .ok (JVal.dict [("name", JVal.str nm), ("dataType", JVal.str "ORDINAL"),
                      ("statistics", JVal.dict sd),
                      ("vectorized_statistics", JVal.dict
                        [("vectorized", .list enc.data),
                         ("encoder", encoderToJVal enc),
                         ("dataType", JVal.str "ORDINAL")])] :: feats',
                     enc :: encs,
                     ⟨JVal.str nm, JVal.str "ORDINAL", off, 3, ["numOfNotNull", "numUniqueValues", "topValueCount"]⟩ :: sch,
                     off2) := by
              simp only [List.map_cons, legacyFeatJ, processLegacyFeatures]
              rw [if_neg (by simp [qActive])]
              rw [show pyUpper (pyGetD [("name", JVal.str nm), ("dataType", JVal.str "ORDINAL"),
                  ("statistics", JVal.dict sd)] "dataType" (.str "")) = Except.ok "ORDINAL"
                from rfl]
              dsimp only
              rw [if_neg (by decide), if_pos (by decide)]
              rw [show pyGetD [("name", JVal.str nm), ("dataType", JVal.str "ORDINAL"),
                  ("statistics", JVal.dict sd)] "statistics" (.dict []) = JVal.dict sd
                from rfl]
              rw [show pyGetD [("name", JVal.str nm), ("dataType", JVal.str "ORDINAL"),
                  ("statistics", JVal.dict sd)] "name" JVal.null = JVal.str nm from rfl]
              rw [hce]
              dsimp only
              rw [show getVectorizerStr "ORDINAL" = VKind.categorical from rfl]
              dsimp only [VKind.vectorLength, VKind.vectorDescription]
              rw [hL]
              rfl
            have hDs : processDirectLoop none metaJ
                (((nm, "ORDINAL", JVal.dict sd) :: rest).map fun f => (f.1, f.2.2)) off =
                .ok ((nm, JVal.dict (dictSet sd "vectorized_statistics"
                       (JVal.dict [("vectorized", .list enc.data),
                                   ("encoder", encoderToJVal enc),
                                   ("dataType", JVal.str "ORDINAL")]))) :: pe,
                     enc :: encs,
                     ⟨JVal.str nm, JVal.str "ORDINAL", off, 3, ["numOfNotNull", "numUniqueValues", "topValueCount"]⟩ :: sch,
                     off2) := by
              simp only [List.map_cons, processDirectLoop]
              rw [if_neg (by simp [qActive])]
              rw [hdt0]
              dsimp only
              rw [if_neg (by simp [jEqStr]), if_neg (by simp [jEqStr])]
              rw [hce]
              dsimp only
              rw [show getVectorizerJ (.str "ORDINAL") = Except.ok VKind.categorical from rfl]
              dsimp only [VKind.vectorLength, VKind.vectorDescription]
              rw [hD]
            exact ⟨_, _, _, _, off2, hLs, hDs⟩
      | null => simp [JVal.isDict] at hd0
      | int n => simp [JVal.isDict] at hd0
      | float q => simp [JVal.isDict] at hd0
      | str st => simp [JVal.isDict] at hd0
      | list l => simp [JVal.isDict] at hd0

theorem processLegacyEntries_single (feats : List JVal) (off : Nat)
    (feats' : List JVal) (encs : List EncoderObj) (sch : List SchemaEntry)
    (off2 : Nat)
    (h : processLegacyFeatures none feats off = .ok (feats', encs, sch, off2)) :
    processLegacyEntries none
        [.dict [("featureSet", .dict [("features", .list feats)])]] off =
      .ok ([.dict [("featureSet", .dict [("features", .list feats')])]],
           encs, sch, off2) := by
  simp only [processLegacyEntries]
  rw [show dlookup [("featureSet", JVal.dict [("features", JVal.list feats)])]
      "featureSet" = some (JVal.dict [("features", JVal.list feats)]) from rfl]
  dsimp only
  rw [show dlookup [("features", JVal.list feats)] "features" =
      some (JVal.list feats) from rfl]
  dsimp only
  rw [h]
  dsimp only
  simp [dictSet]

theorem processLegacyFormat_single (feats : List JVal)
    (feats' : List JVal) (encs : List EncoderObj) (sch : List SchemaEntry)
    (off2 : Nat)
    (h : processLegacyFeatures none feats 0 = .ok (feats', encs, sch, off2)) :
    processLegacyFormat
        [("entries", .list [.dict [("featureSet", .dict [("features", .list feats)])]])]
        none =
      .ok (.dict [("entries", .list
             [.dict [("featureSet", .dict [("features", .list feats')])]])],
           encs, sch) := by
  unfold processLegacyFormat
  rw [show dlookup [("entries", JVal.list
      [.dict [("featureSet", .dict [("features", .list feats)])]])] "entries" =
    some (JVal.list [.dict [("featureSet", .dict [("features", .list feats)])]])
    from rfl]
  dsimp only
  rw [processLegacyEntries_single feats 0 feats' encs sch off2 h]
  dsimp only [dictSet]
  simp [dictSet]

/-- C3 amended, part (c) machinery: the direct format wrapper on `directOf`. -/
theorem processDirectFormat_directOf (fs : List (String × String × JVal))
    (pe : List (String × JVal)) (encs : List EncoderObj) (sch : List SchemaEntry)
    (off2 : Nat)
    (h : processDirectLoop none (directMetaJ fs) (fs.map fun f => (f.1, f.2.2)) 0 =
      .ok (pe, encs, sch, off2)) :
    processDirectFormat (directOf fs) none =
      .ok (.dict (dictSet (directOf fs) "entries" (.dict pe)), encs, sch) := by
  unfold processDirectFormat
  rw [show dlookup (directOf fs) "entries" =
    some (JVal.dict (fs.map fun f => (f.1, f.2.2))) from rfl]
  simp only [Option.getD_some]
  rw [show pyGetD (directOf fs) "features" (.list []) = directMetaJ fs from rfl]
  rw [h]

/-- The undeclared feature of the C3 counterexample: boolean-shaped statistics
but no dataType field. -/
def c3aStats : List (String × JVal) := [("numOfNotNull", .int 5), ("numOfTrue", .int 3)]

def c3f1 : JVal := .dict [("name", .str "a"), ("statistics", .dict c3aStats)]

def c3f2 : JVal := .dict [("name", .str "b"), ("dataType", .str "BOOLEAN"),
  ("statistics", .dict [("numOfNotNull", .int 4), ("numOfTrue", .int 2)])]

def c3data : JVal := .dict [("entries", .list
  [.dict [("featureSet", .dict [("features", .list [c3f1, c3f2])])]])]

/-- Fields of the vectorized_statistics the legacy path attaches to the BOOLEAN
feature "b": no dataType key. -/
def c3f2vsFields : List (String × JVal) :=
  [("vectorized", .list [.int 4, .int 2]),
   ("encoder", .dict [("type", .str "int"), ("data", .list [.int 4, .int 2]),
                      ("dataType", .str "BOOLEAN"), ("vectorLength", .int 2)])]

def c3enhExpected : JVal := .dict [("entries", .list
  [.dict [("featureSet", .dict [("features", .list
    [c3f1,
     .dict [("name", .str "b"), ("dataType", .str "BOOLEAN"),
            ("statistics", .dict [("numOfNotNull", .int 4), ("numOfTrue", .int 2)]),
            ("vectorized_statistics", .dict c3f2vsFields)]])])]])]

/-- C3 counterexample: feature "a" has no declared dataType and its statistics
record infers BOOLEAN, yet legacy processing skips it entirely (no inference,
no vectorized_statistics, no encoder, no schema entry); and the processed
BOOLEAN feature "b" receives a vectorized_statistics without a dataType key. -/
theorem C3_counterexample :
    enhanceDataset c3data none = .ok (c3enhExpected,
      [.aggregated "mixed" [.int 4, .int 2] 1 supportedDataTypes],
      [⟨.str "b", .str "BOOLEAN", 0, 2, ["numOfNotNull", "numOfTrue"]⟩]) ∧
    inferTypeFromShape (.dict c3aStats) = .ok (.str "BOOLEAN") ∧
    dlookup c3f2vsFields "dataType" = none :=
  ⟨rfl, rfl, rfl⟩

/-- C3 amended: legacy per-feature processing reads the declared dataType only
(no inference: a feature without one is skipped untouched, whatever its
statistics shape); BOOLEAN features receive vectorized_statistics of shape
{vectorized, encoder} without a dataType key; and for dict-statistics features
whose declared types are the uppercase eligible ones, the legacy path produces
exactly the encoders and schema entries the direct path produces for the same
ordered features declared through the features metadata. -/
theorem C3_legacy_processing (fs : List (String × String × JVal))
    (hnd : (fs.map (·.1)).Nodup)
    (ht : ∀ f ∈ fs, f.2.1 ∈ (["BOOLEAN", "NUMERIC", "NOMINAL", "ORDINAL"] : List String))
    (hd : ∀ f ∈ fs, (f.2.2).isDict = true) :
    (∀ (nm : String) (sd : List (String × JVal)) (off : Nat),
      processLegacyFeatures none
          [.dict [("name", .str nm), ("statistics", .dict sd)]] off =
        .ok ([.dict [("name", .str nm), ("statistics", .dict sd)]], [], [], off)) ∧
    (∀ (nm : String) (sd : List (String × JVal)) (off : Nat),
      processLegacyFeatures none
          [.dict [("name", .str nm), ("dataType", .str "BOOLEAN"),
                  ("statistics", .dict sd)]] off =
        .ok ([.dict [("name", .str nm), ("dataType", .str "BOOLEAN"),
               ("statistics", .dict sd),
               ("vectorized_statistics", .dict
                 [("vectorized", .list [pyGetD sd "numOfNotNull" (.int 0),
                    pyGetD sd "numOfTrue" (.int 0)]),
                  ("encoder", encoderToJVal (encodeFeatureVectorStr "BOOLEAN"
                    [pyGetD sd "numOfNotNull" (.int 0),
                     pyGetD sd "numOfTrue" (.int 0)]))])]],
             [encodeFeatureVectorStr "BOOLEAN"
               [pyGetD sd "numOfNotNull" (.int 0), pyGetD sd "numOfTrue" (.int 0)]],
             [⟨.str nm, .str "BOOLEAN", off, 2, ["numOfNotNull", "numOfTrue"]⟩],
             off + 2)) ∧
    (∃ ld dd : JVal, ∃ encs : List EncoderObj, ∃ sch : List SchemaEntry,
      processLegacyFormat (legacyOf fs) none = .ok (ld, encs, sch) ∧
      processDirectFormat (directOf fs) none = .ok (dd, encs, sch)) := by
  refine ⟨fun nm sd off => rfl, fun nm sd off => rfl, ?_⟩
  have hmeta : ∀ f ∈ fs, getFeatureDataType f.1 f.2.2 (directMetaJ fs) =
      .ok (.str f.2.1) := by
    intro f hf
    obtain ⟨nm, t, v⟩ := f
    exact getFeatureDataType_meta fs nm t v hf hnd
  obtain ⟨feats', pe, encs, sch, off2, hL, hD⟩ :=
    loop_equiv (directMetaJ fs) fs 0 hmeta ht hd
  exact ⟨_, _, encs, sch,
    processLegacyFormat_single (fs.map legacyFeatJ) feats' encs sch off2 hL,
    processDirectFormat_directOf fs pe encs sch off2 hD⟩

/-- Witness for C3 with one NUMERIC and one BOOLEAN feature. -/
theorem C3_legacy_processing_witness :
    ∃ ld dd : JVal, ∃ encs : List EncoderObj, ∃ sch : List SchemaEntry,
      processLegacyFormat (legacyOf
        [("x", "NUMERIC", .dict [("numOfNotNull", .int 2), ("min", .float 1),
           ("max", .float 3), ("avg", .float 2)]),
         ("y", "BOOLEAN", .dict [("numOfNotNull", .int 7), ("numOfTrue", .int 6)])])
        none = .ok (ld, encs, sch) ∧
      processDirectFormat (directOf
        [("x", "NUMERIC", .dict [("numOfNotNull", .int 2), ("min", .float 1),
           ("max", .float 3), ("avg", .float 2)]),
         ("y", "BOOLEAN", .dict [("numOfNotNull", .int 7), ("numOfTrue", .int 6)])])
        none = .ok (dd, encs, sch) :=
  (C3_legacy_processing
    [("x", "NUMERIC", .dict [("numOfNotNull", .int 2), ("min", .float 1),
       ("max", .float 3), ("avg", .float 2)]),
     ("y", "BOOLEAN", .dict [("numOfNotNull", .int 7), ("numOfTrue", .int 6)])]
    (by decide) (by decide) (by decide)).2.2

end AthVect